import Mathlib

/-!
Verification of the internal payment workflow system core
(`backend/apps/payments/state_machine.py`, `versioning.py`, `services.py`,
`core/exceptions.py`, `apps/users/models.py`) against its natural-language
specification.

The embedding is shallow: each Python function of the workflow core is
translated into an executable Lean function.  Database state is modelled as an
explicit `World` record holding the rows of every table the core touches;
Django's `transaction.atomic` semantics are modelled by making every service
operation return `Except SvcErr (World × α)` — an error outcome carries no
world, i.e. the transaction rolled back and stored state is unchanged.
-/

namespace IPS

/-- Entity kinds accepted by `validate_transition` (`state_machine.py`). -/
inductive EntityType
  | PaymentRequest
  | PaymentBatch
deriving DecidableEq, Repr, Fintype

/-- The status strings used by `PaymentRequest` and `PaymentBatch`
(`models.py` STATUS_CHOICES; the two entity kinds share `DRAFT`/`SUBMITTED`). -/
inductive Status
  | DRAFT
  | SUBMITTED
  | PENDING_APPROVAL
  | APPROVED
  | REJECTED
  | PAID
  | PROCESSING
  | COMPLETED
  | CANCELLED
deriving DecidableEq, Repr, Fintype

/-- User roles (`apps/users/models.py`, class `Role`). -/
inductive Role
  | ADMIN
  | CREATOR
  | APPROVER
  | VIEWER
deriving DecidableEq, Repr

/-- Error codes of the `DomainError` hierarchy in `core/exceptions.py`
(each subclass fixes one code).  The file defines no other domain error kind:
in particular there is no `ConcurrentModificationError` class or code. -/
inductive ErrorCode
  | VALIDATION_ERROR
  | INVALID_STATE
  | NOT_FOUND
  | FORBIDDEN
  | PRECONDITION_FAILED
deriving DecidableEq, Repr

/-- The distinct `InvalidStateError` raise sites in the modelled code, with the
payload each message/details dict carries.  Two sites are distinguishable to a
caller exactly when their constructors differ. -/
inductive InvalidStateMsg
  | invalidCurrentStatus (entity : EntityType) (current : Status)
  | terminalState (entity : EntityType) (current : Status) (target : Status)
  | invalidTransitionMsg (entity : EntityType) (current : Status) (target : Status)
  | concurrentModification (expectedVersion : Nat)
  | cannotAddRequestBatchStatus (batchStatus : Status)
  | cannotAddRequestClosedBatch
  | cannotUpdateRequestStatus (requestStatus : Status)
  | financialFieldsLocked
  | cannotUpdateClosedBatch
  | cannotSubmitBatchStatus (batchStatus : Status)
  | requestsMustBeDraft (requestId : Nat) (requestStatus : Status)
  | cannotCancelBatchStatus (batchStatus : Status)
  | alreadyApproved
  | cannotApproveStatus (requestStatus : Status)
  | concurrentOrInvalidApproval
  | cannotRejectStatus (requestStatus : Status)
  | concurrentOrInvalidRejection
  | cannotMarkPaidStatus (requestStatus : Status)
  | concurrentOrInvalidMarkPaid
deriving DecidableEq, Repr

/-- Validation-error raise sites used by the modelled services. -/
inductive ValidationMsg
  | badEntityType
  | vendorIdRequired
  | bothVendorAndSubcontractor
  | subcontractorIdRequired
  | siteIdRequired
  | baseAmountMustBePositive
  | extraAmountMustBeNonNegative
  | extraReasonRequired
  | badCurrency
  | amountMustBePositive
  | beneficiaryNameEmpty
  | beneficiaryAccountEmpty
  | purposeEmpty
deriving DecidableEq, Repr

/-- Precondition-failure raise sites used by the modelled services. -/
inductive PreconditionMsg
  | batchMustContainRequest
  | invalidTotalAmount (requestId : Nat)
  | missingSite (requestId : Nat)
  | invalidAmount (requestId : Nat)
  | missingRequiredFields (requestId : Nat)
  | invalidCurrencyOnRequest (requestId : Nat)
deriving DecidableEq, Repr

/-- Errors a service call can surface.  The first five constructors are the
`DomainError` subclasses of `core/exceptions.py`; `integrityViolation` models a
raw storage uniqueness violation (Django `IntegrityError`) escaping the service
layer, which is not a `DomainError`. -/
inductive SvcErr
  | validationError (msg : ValidationMsg)
  | invalidStateError (msg : InvalidStateMsg)
  | notFoundError
  | permissionDeniedError
  | preconditionFailedError (msg : PreconditionMsg)
  | integrityViolation
deriving DecidableEq, Repr

instance {ε α : Type} [DecidableEq ε] [DecidableEq α] :
    DecidableEq (Except ε α) := fun a b =>
  match a, b with
  | .ok x, .ok y =>
      if h : x = y then .isTrue (by rw [h]) else .isFalse (by simp [h])
  | .error x, .error y =>
      if h : x = y then .isTrue (by rw [h]) else .isFalse (by simp [h])
  | .ok _, .error _ => .isFalse (by simp)
  | .error _, .ok _ => .isFalse (by simp)

/-- The `code` attribute a `DomainError` carries (`core/exceptions.py`):
each subclass passes one fixed code to the base constructor.  A raw
`IntegrityError` has no domain code; it is mapped here to `none`. -/
def SvcErr.code : SvcErr → Option ErrorCode
  | .validationError _ => some .VALIDATION_ERROR
  | .invalidStateError _ => some .INVALID_STATE
  | .notFoundError => some .NOT_FOUND
  | .permissionDeniedError => some .FORBIDDEN
  | .preconditionFailedError _ => some .PRECONDITION_FAILED
  | .integrityViolation => none

/-! ## State machine (`apps/payments/state_machine.py`) -/

/-- `PAYMENT_REQUEST_TRANSITIONS` and `PAYMENT_BATCH_TRANSITIONS` as one
lookup: `some targets` when the current status is a key of the kind's dict,
`none` otherwise. -/
def allowedTargets : EntityType → Status → Option (List Status)
  | .PaymentRequest, .DRAFT => some [.SUBMITTED, .DRAFT]
  | .PaymentRequest, .SUBMITTED => some [.PENDING_APPROVAL]
  | .PaymentRequest, .PENDING_APPROVAL => some [.APPROVED, .REJECTED]
  | .PaymentRequest, .APPROVED => some [.PAID]
  | .PaymentRequest, .REJECTED => some []
  | .PaymentRequest, .PAID => some []
  | .PaymentBatch, .DRAFT => some [.SUBMITTED, .CANCELLED]
  | .PaymentBatch, .SUBMITTED => some [.PROCESSING]
  | .PaymentBatch, .PROCESSING => some [.COMPLETED]
  | .PaymentBatch, .COMPLETED => some []
  | .PaymentBatch, .CANCELLED => some []
  | _, _ => none

/-- `validate_transition(entity_type, current_status, target_status)`.
Mirrors the Python control flow: unknown current status, then the
terminal-state check (empty target list), then the explicit DRAFT same-state
allowance, then list membership. -/
def validateTransition (entity : EntityType) (current target : Status) :
    Except SvcErr Bool :=
  match allowedTargets entity current with
  | none =>
      .error (.invalidStateError (.invalidCurrentStatus entity current))
  | some allowed =>
      if allowed.isEmpty then
        .error (.invalidStateError (.terminalState entity current target))
      else if current = target ∧ current = .DRAFT then
        .ok true
      else if target ∈ allowed then
        .ok true
      else
        .error (.invalidStateError (.invalidTransitionMsg entity current target))

/-- `is_terminal_state(entity_type, status)` (`state_machine.py`). -/
def isTerminalState (entity : EntityType) (status : Status) : Bool :=
  match allowedTargets entity status with
  | some [] => true
  | _ => false

/-- `is_closed_batch(status)` (`state_machine.py`). -/
def isClosedBatch (status : Status) : Bool :=
  status = .COMPLETED ∨ status = .CANCELLED

/-! ## Version-locked update (`apps/payments/versioning.py`) -/

/-- A `PaymentRequest` row (`apps/payments/models.py`).  `amount` is the
legacy display amount, `baseAmount`/`extraAmount`/`totalAmount` the
ledger-driven decimal fields (decimals are modelled as scaled integers),
`version` the optimistic-concurrency counter (default 1). -/
structure RequestRec where
  id : Nat
  batchId : Nat
  status : Status
  amount : Int
  currency : String
  beneficiaryName : Option String
  beneficiaryAccount : Option String
  purpose : Option String
  entityType : Option String
  vendorId : Option Nat
  subcontractorId : Option Nat
  siteId : Option Nat
  baseAmount : Option Int
  extraAmount : Option Int
  extraReason : Option String
  totalAmount : Option Int
  vendorSnapshotName : Option String
  subcontractorSnapshotName : Option String
  siteSnapshotCode : Option String
  createdBy : Nat
  updatedBy : Option Nat
  version : Nat
deriving DecidableEq, Repr

/-- `version_locked_update(queryset, current_version, **updates)`.
`pred` is the filter already applied to the queryset by the caller; the
function adds the `version=current_version` filter, applies the field updates
`upd` and increments `version` by 1 on every matching row, and returns the
number of rows updated — raising `InvalidStateError` with the
concurrent-modification message when that number is zero. -/
def versionLockedUpdate (rows : List RequestRec) (pred : RequestRec → Bool)
    (currentVersion : Nat) (upd : RequestRec → RequestRec) :
    Except SvcErr (List RequestRec × Nat) :=
  let hits := fun r => pred r && (r.version == currentVersion)
  let updatedCount := rows.countP hits
  if updatedCount = 0 then
    .error (.invalidStateError (.concurrentModification currentVersion))
  else
    .ok (rows.map (fun r => if hits r then
          { upd r with version := r.version + 1 } else r),
        updatedCount)

/-! ## Data model (`apps/*/models.py`) -/

/-- A `User` row (`apps/users/models.py`); only the fields the workflow
services read. -/
structure UserRec where
  id : Nat
  role : Role
deriving DecidableEq, Repr

/-- A `PaymentBatch` row (`apps/payments/models.py`). -/
structure BatchRec where
  id : Nat
  title : String
  status : Status
  createdBy : Nat
  submittedAt : Option Nat
  completedAt : Option Nat
deriving DecidableEq, Repr

/-- `ApprovalRecord.decision` choices. -/
inductive Decision
  | APPROVED
  | REJECTED
deriving DecidableEq, Repr

/-- An `ApprovalRecord` row: one-to-one with a `PaymentRequest`
(`payment_request = OneToOneField(..., related_name="approval")`), so storage
enforces at most one row per request id. -/
structure ApprovalRec where
  requestId : Nat
  approverId : Nat
  decision : Decision
  comment : Option String
deriving DecidableEq, Repr

/-- `SOAVersion.source` choices (`SOURCE_UPLOAD` / `SOURCE_GENERATED`). -/
inductive SoaSource
  | UPLOAD
  | GENERATED
deriving DecidableEq, Repr

/-- An `SOAVersion` row; `(payment_request, version_number)` unique together. -/
structure SOARec where
  requestId : Nat
  versionNumber : Nat
  source : SoaSource
  uploadedBy : Option Nat
deriving DecidableEq, Repr

/-- The `operation` strings stored in `IdempotencyKey` rows. -/
inductive OpName
  | CREATE_PAYMENT_REQUEST
  | APPROVE_PAYMENT_REQUEST
  | REJECT_PAYMENT_REQUEST
  | MARK_PAYMENT_PAID
deriving DecidableEq, Repr

/-- An `IdempotencyKey` row; `(key, operation)` unique together. -/
structure IdemRec where
  key : String
  operation : OpName
  targetObjectId : Option Nat
  responseCode : Nat
deriving DecidableEq, Repr

/-- Audit event types written by the payment services
(`apps/audit/services.create_audit_entry` call sites). -/
inductive EventType
  | BATCH_CREATED
  | REQUEST_CREATED
  | SUBCONTRACTOR_SITE_OVERRIDE
  | REQUEST_UPDATED
  | BATCH_SUBMITTED
  | REQUEST_SUBMITTED
  | BATCH_CANCELLED
  | APPROVAL_RECORDED
  | REQUEST_PAID
  | BATCH_COMPLETED
  | SOA_GENERATED
  | SOA_UPLOADED
deriving DecidableEq, Repr

/-- An `AuditLog` row; the before/after payloads are opaque to every claim
here, so only the identifying fields are modelled. -/
structure AuditRec where
  eventType : EventType
  actorId : Option Nat
  entityTag : String
  entityId : Option Nat
deriving DecidableEq, Repr

/-- A `Vendor` row (`apps/ledger/models.py`). -/
structure VendorRec where
  id : Nat
  name : String
  isActive : Bool
deriving DecidableEq, Repr

/-- A `Subcontractor` row (`apps/ledger/models.py`). -/
structure SubcontractorRec where
  id : Nat
  name : String
  isActive : Bool
  assignedSiteId : Option Nat
deriving DecidableEq, Repr

/-- A `Site` row (`apps/ledger/models.py`). -/
structure SiteRec where
  id : Nat
  code : String
  isActive : Bool
deriving DecidableEq, Repr

/-- The relational store as the workflow services see it.  `nextRequestId` is
the id the next created `PaymentRequest` receives; `now` is the clock value
`timezone.now()` returns during the call. -/
structure World where
  users : List UserRec
  vendors : List VendorRec
  subcontractors : List SubcontractorRec
  sites : List SiteRec
  batches : List BatchRec
  requests : List RequestRec
  approvals : List ApprovalRec
  soas : List SOARec
  idemKeys : List IdemRec
  audits : List AuditRec
  nextRequestId : Nat
  now : Nat
deriving DecidableEq, Repr

/-! ## Store lookups and writers -/

/-- `User.objects.get(id=uid)`, as an option. -/
def findUser (w : World) (uid : Nat) : Option UserRec :=
  w.users.find? (fun u => u.id == uid)

/-- `PaymentBatch.objects.get(id=bid)`, as an option. -/
def findBatch (w : World) (bid : Nat) : Option BatchRec :=
  w.batches.find? (fun b => b.id == bid)

/-- `PaymentRequest.objects.get(id=rid)`, as an option. -/
def findRequest (w : World) (rid : Nat) : Option RequestRec :=
  w.requests.find? (fun r => r.id == rid)

/-- `IdempotencyKey.objects.filter(key=k, operation=op).first()`. -/
def findIdemKey (w : World) (k : String) (op : OpName) : Option IdemRec :=
  w.idemKeys.find? (fun ik => ik.key == k && ik.operation == op)

/-- `hasattr(request, "approval")`: whether an `ApprovalRecord` row exists for
the request. -/
def hasApprovalFor (w : World) (rid : Nat) : Bool :=
  w.approvals.any (fun a => a.requestId == rid)

/-- `batch.requests.all()`: every request row belonging to the batch. -/
def batchRequests (w : World) (bid : Nat) : List RequestRec :=
  w.requests.filter (fun r => r.batchId == bid)

/-- Append one audit row (`create_audit_entry`; the audit sink is
append-only). -/
def appendAudit (w : World) (a : AuditRec) : World :=
  { w with audits := w.audits ++ [a] }

/-- Save a modified batch row (`batch.save()`). -/
def saveBatch (w : World) (bid : Nat) (f : BatchRec → BatchRec) : World :=
  { w with batches := w.batches.map (fun b => if b.id == bid then f b else b) }

/-- Save a modified request row (`req.save()`). -/
def saveRequest (w : World) (rid : Nat) (f : RequestRec → RequestRec) : World :=
  { w with requests := w.requests.map (fun r => if r.id == rid then f r else r) }

/-- The opening idempotency-replay check shared by `add_request`,
`approve_request`, `reject_request` and `mark_paid`: if the caller supplied a
key, the `(key, operation)` row exists, it references a target id, and the
target request still exists, the call returns it; in every other case the
business logic proceeds. -/
def idemReplay (w : World) (key : Option String) (op : OpName) :
    Option RequestRec :=
  match key with
  | none => none
  | some k =>
      match findIdemKey w k op with
      | none => none
      | some ik =>
          match ik.targetObjectId with
          | none => none
          | some tid => findRequest w tid

/-- Python `str.upper()`, modelled over the character list. -/
def pyUpper (s : String) : String :=
  String.mk (s.data.map Char.toUpper)

/-- Python `str.strip()`: drop leading and trailing whitespace, modelled
over the character list. -/
def pyStrip (s : String) : String :=
  String.mk
    (((s.data.dropWhile Char.isWhitespace).reverse.dropWhile
        Char.isWhitespace).reverse)

/-- `comment.strip() if comment else None` (empty string is falsy). -/
def normComment (comment : Option String) : Option String :=
  match comment with
  | none => none
  | some c => if c = "" then none else some (pyStrip c)

/-! ## `generate_soa_for_batch` (`services.py`) -/

/-- Next `version_number` for a request's SOA sequence: highest existing
number plus one, or 1 when none exist
(`existing_versions.first().version_number + 1` / `1`). -/
def nextSoaVersion (soas : List SOARec) (rid : Nat) : Nat :=
  ((soas.filter (fun s => s.requestId == rid)).foldl
    (fun m s => max m s.versionNumber) 0) + 1

/-- The idempotency guard of `generate_soa_for_batch`: does any request of the
batch already carry a GENERATED-source `SOAVersion`
(`SOAVersion.objects.filter(payment_request__batch_id=batch_id,
source=SOURCE_GENERATED).exists()`)? -/
def hasGeneratedSoa (w : World) (bid : Nat) : Bool :=
  w.soas.any (fun s => s.source == SoaSource.GENERATED &&
    w.requests.any (fun r => r.id == s.requestId && r.batchId == bid))

/-- `generate_soa_for_batch(batch_id)`: no-op when the batch is missing or a
generated SOA already exists for the batch; otherwise creates one
GENERATED-source `SOAVersion` per request of the batch (each at that request's
next version number) and writes one `SOA_GENERATED` system audit entry.
The Python return value (list of created versions) is not used by its caller
inside `mark_paid`, so the model returns the updated store only.
`soaGenStep` is one iteration of its per-request creation loop. -/
def soaGenStep (acc : World) (r : RequestRec) : World :=
  { acc with soas := acc.soas ++
      [⟨r.id, nextSoaVersion acc.soas r.id, .GENERATED, none⟩] }

def generateSoaForBatch (w : World) (batchId : Nat) : World :=
  match findBatch w batchId with
  | none => w
  | some _ =>
      if hasGeneratedSoa w batchId then w
      else
        let w1 := (batchRequests w batchId).foldl soaGenStep w
        appendAudit w1 ⟨.SOA_GENERATED, none, "PaymentBatch", some batchId⟩

/-! ## `approve_request` (`services.py`) -/

/-- `approve_request(request_id, approver_id, comment, idempotency_key)`.
Mirrors the source order: idempotency replay; request and approver lookup;
role check (APPROVER or ADMIN); state check with the APPROVED replay branch;
`ApprovalRecord` creation (a second row for the same request violates the
one-to-one constraint and surfaces the raw storage error);
`validate_transition`; the version-locked update; idempotency-key persistence;
audit write. -/
def approveRequest (w : World) (requestId approverId : Nat)
    (comment : Option String) (idempotencyKey : Option String) :
    Except SvcErr (World × RequestRec) :=
  match idemReplay w idempotencyKey .APPROVE_PAYMENT_REQUEST with
  | some req => .ok (w, req)
  | none =>
  match findRequest w requestId with
  | none => .error .notFoundError
  | some request =>
  match findUser w approverId with
  | none => .error .notFoundError
  | some approver =>
  if ¬(approver.role = .APPROVER ∨ approver.role = .ADMIN) then
    .error .permissionDeniedError
  else if request.status ≠ .PENDING_APPROVAL then
    if request.status = .APPROVED then
      match idempotencyKey with
      | some k =>
          match findIdemKey w k .APPROVE_PAYMENT_REQUEST with
          | some ik =>
              if ik.targetObjectId.isSome then .ok (w, request)
              else .error (.invalidStateError .alreadyApproved)
          | none => .error (.invalidStateError .alreadyApproved)
      | none => .error (.invalidStateError .alreadyApproved)
    else
      .error (.invalidStateError (.cannotApproveStatus request.status))
  else
  if hasApprovalFor w requestId then
    .error .integrityViolation
  else
  let w1 := { w with approvals := w.approvals ++
      [({ requestId := request.id, approverId := approverId,
          decision := .APPROVED, comment := normComment comment } : ApprovalRec)] }
  match validateTransition .PaymentRequest request.status .APPROVED with
  | .error e => .error e
  | .ok _ =>
  match versionLockedUpdate w1.requests
      (fun r => r.id == requestId && r.status == Status.PENDING_APPROVAL &&
        r.version == request.version)
      request.version
      (fun r => { r with status := .APPROVED, updatedBy := some approverId }) with
  | .error e => .error e
  | .ok (rows, updatedCount) =>
  if updatedCount = 0 then
    .error (.invalidStateError .concurrentOrInvalidApproval)
  else
  let w2 := { w1 with requests := rows }
  match findRequest w2 requestId with
  | none => .error .notFoundError
  | some refreshed =>
  let w3 := match idempotencyKey with
    | some k => { w2 with idemKeys := w2.idemKeys ++
        [⟨k, .APPROVE_PAYMENT_REQUEST, some refreshed.id, 200⟩] }
    | none => w2
  let w4 := appendAudit w3
    ⟨.APPROVAL_RECORDED, some approverId, "PaymentRequest", some refreshed.id⟩
  .ok (w4, refreshed)

/-! ## `reject_request` (`services.py`) -/

/-- `reject_request(request_id, approver_id, comment, idempotency_key)`.
Differences from `approve_request`, kept from the source: a request already
REJECTED returns idempotent success regardless of the key; an existing
`ApprovalRecord` is detected (`hasattr(request, "approval")`) and returns the
current entity instead of attempting the insert. -/
def rejectRequest (w : World) (requestId approverId : Nat)
    (comment : Option String) (idempotencyKey : Option String) :
    Except SvcErr (World × RequestRec) :=
  match idemReplay w idempotencyKey .REJECT_PAYMENT_REQUEST with
  | some req => .ok (w, req)
  | none =>
  match findRequest w requestId with
  | none => .error .notFoundError
  | some request =>
  match findUser w approverId with
  | none => .error .notFoundError
  | some approver =>
  if ¬(approver.role = .APPROVER ∨ approver.role = .ADMIN) then
    .error .permissionDeniedError
  else if request.status ≠ .PENDING_APPROVAL then
    if request.status = .REJECTED then .ok (w, request)
    else .error (.invalidStateError (.cannotRejectStatus request.status))
  else
  if hasApprovalFor w requestId then
    .ok (w, request)
  else
  let w1 := { w with approvals := w.approvals ++
      [({ requestId := request.id, approverId := approverId,
          decision := .REJECTED, comment := normComment comment } : ApprovalRec)] }
  match validateTransition .PaymentRequest request.status .REJECTED with
  | .error e => .error e
  | .ok _ =>
  match versionLockedUpdate w1.requests
      (fun r => r.id == requestId && r.status == Status.PENDING_APPROVAL &&
        r.version == request.version)
      request.version
      (fun r => { r with status := .REJECTED, updatedBy := some approverId }) with
  | .error e => .error e
  | .ok (rows, updatedCount) =>
  if updatedCount = 0 then
    .error (.invalidStateError .concurrentOrInvalidRejection)
  else
  let w2 := { w1 with requests := rows }
  match findRequest w2 requestId with
  | none => .error .notFoundError
  | some refreshed =>
  let w3 := match idempotencyKey with
    | some k => { w2 with idemKeys := w2.idemKeys ++
        [⟨k, .REJECT_PAYMENT_REQUEST, some refreshed.id, 200⟩] }
    | none => w2
  let w4 := appendAudit w3
    ⟨.APPROVAL_RECORDED, some approverId, "PaymentRequest", some refreshed.id⟩
  .ok (w4, refreshed)

/-! ## `mark_paid` (`services.py`) -/

/-- The completion cascade at the end of `mark_paid`: if the parent batch is
PROCESSING and every request of the batch (re-read after the update) is in a
terminal state, transition the batch to COMPLETED (setting `completed_at`),
write the system `BATCH_COMPLETED` audit entry and invoke
`generate_soa_for_batch`; otherwise leave the store as is. -/
def cascadeCompletion (w : World) (batch : BatchRec) : Except SvcErr World :=
  if batch.status = .PROCESSING then
    if (batchRequests w batch.id).all
        (fun r => r.status == Status.APPROVED || r.status == Status.REJECTED ||
          r.status == Status.PAID) then
      match validateTransition .PaymentBatch batch.status .COMPLETED with
      | .error e => .error e
      | .ok _ =>
          let w5 := saveBatch w batch.id
            (fun b => { b with status := .COMPLETED, completedAt := some w.now })
          let w6 := appendAudit w5
            ⟨.BATCH_COMPLETED, none, "PaymentBatch", some batch.id⟩
          .ok (generateSoaForBatch w6 batch.id)
    else .ok w
  else .ok w

/-- `mark_paid(request_id, actor_id, idempotency_key)`.  The role check admits
only CREATOR and APPROVER (`actor.role not in ("CREATOR", "APPROVER")`); a
request already PAID returns idempotent success regardless of the key; after
the version-locked update and the `REQUEST_PAID` audit entry the completion
cascade re-evaluates the parent batch. -/
def markPaid (w : World) (requestId actorId : Nat)
    (idempotencyKey : Option String) :
    Except SvcErr (World × RequestRec) :=
  match idemReplay w idempotencyKey .MARK_PAYMENT_PAID with
  | some req => .ok (w, req)
  | none =>
  match findRequest w requestId with
  | none => .error .notFoundError
  | some request =>
  match findUser w actorId with
  | none => .error .notFoundError
  | some actor =>
  if ¬(actor.role = .CREATOR ∨ actor.role = .APPROVER) then
    .error .permissionDeniedError
  else if request.status ≠ .APPROVED then
    if request.status = .PAID then .ok (w, request)
    else .error (.invalidStateError (.cannotMarkPaidStatus request.status))
  else
  match validateTransition .PaymentRequest request.status .PAID with
  | .error e => .error e
  | .ok _ =>
  match versionLockedUpdate w.requests
      (fun r => r.id == requestId && r.status == Status.APPROVED &&
        r.version == request.version)
      request.version
      (fun r => { r with status := .PAID, updatedBy := some actorId }) with
  | .error e => .error e
  | .ok (rows, updatedCount) =>
  if updatedCount = 0 then
    .error (.invalidStateError .concurrentOrInvalidMarkPaid)
  else
  let w2 := { w with requests := rows }
  match findRequest w2 requestId with
  | none => .error .notFoundError
  | some refreshed =>
  let w3 := match idempotencyKey with
    | some k => { w2 with idemKeys := w2.idemKeys ++
        [⟨k, .MARK_PAYMENT_PAID, some refreshed.id, 200⟩] }
    | none => w2
  let w4 := appendAudit w3
    ⟨.REQUEST_PAID, some actorId, "PaymentRequest", some refreshed.id⟩
  match findBatch w4 request.batchId with
  | none => .error .notFoundError
  | some batch =>
  match cascadeCompletion w4 batch with
  | .error e => .error e
  | .ok w7 => .ok (w7, refreshed)

/-- The store as `mark_paid` leaves it just before the completion cascade:
request row version-locked to PAID, idempotency key recorded, `REQUEST_PAID`
audit entry appended (the composition of the source's steps up to
`_cascade_completion`). -/
def paidUpdateWorld (w : World) (rid aid : Nat) (s : String)
    (req : RequestRec) : World :=
  { w with
    requests := w.requests.map (fun r =>
      if (r.id == rid && r.status == Status.APPROVED &&
          (r.version == req.version) && (r.version == req.version)) = true then
        { r with
          status := Status.PAID,
          updatedBy := some aid,
          version := r.version + 1 }
      else r),
    idemKeys := w.idemKeys ++
      [⟨s, .MARK_PAYMENT_PAID, some req.id, 200⟩],
    audits := w.audits ++
      [⟨.REQUEST_PAID, some aid, "PaymentRequest", some req.id⟩] }

/-! ## `add_request` (`services.py`) -/

/-- `Vendor.objects.get(id=vid, is_active=True)`, as an option. -/
def findActiveVendor (w : World) (vid : Nat) : Option VendorRec :=
  w.vendors.find? (fun v => v.id == vid && v.isActive)

/-- `Subcontractor.objects.get(id=sid, is_active=True)`, as an option. -/
def findActiveSubcontractor (w : World) (sid : Nat) : Option SubcontractorRec :=
  w.subcontractors.find? (fun s => s.id == sid && s.isActive)

/-- `Site.objects.get(id=sid, is_active=True)`, as an option. -/
def findActiveSite (w : World) (sid : Nat) : Option SiteRec :=
  w.sites.find? (fun s => s.id == sid && s.isActive)

/-- Python falsiness of an optional string (`not x`): absent or empty. -/
def falsyStr (o : Option String) : Bool :=
  match o with
  | none => true
  | some s => s = ""

/-- The keyword arguments of `services.add_request` (besides `batch_id` and
`creator_id`).  There is no total-amount argument: the service computes the
total itself. -/
structure AddRequestArgs where
  amount : Option Int
  currency : Option String
  beneficiaryName : Option String
  beneficiaryAccount : Option String
  purpose : Option String
  entityType : Option String
  vendorId : Option Nat
  subcontractorId : Option Nat
  siteId : Option Nat
  baseAmount : Option Int
  extraAmount : Option Int
  extraReason : Option String
  idempotencyKey : Option String
deriving DecidableEq, Repr

/-- Outcome of the ledger-driven validation block of `add_request`:
the referenced active rows, the server-computed amounts
(`total_amount = base_amount + extra_amount`), and whether the
subcontractor-site-override warning audit entry is written. -/
structure LedgerResolution where
  entityTypeStr : String
  vendor : Option VendorRec
  subcontractor : Option SubcontractorRec
  site : SiteRec
  base : Int
  extra : Int
  total : Int
  currencyStr : String
  overrideAudit : Bool
deriving DecidableEq, Repr

/-- The ledger-driven validation block of `add_request` (entity-type check,
entity/site lookups, amount validation, server-side total computation,
override-warning condition, currency check), in source order. -/
def resolveLedgerFields (w : World) (args : AddRequestArgs) (et : String) :
    Except SvcErr LedgerResolution :=
  if ¬(et = "VENDOR" ∨ et = "SUBCONTRACTOR") then
    .error (.validationError .badEntityType)
  else
  match ((if et = "VENDOR" then
      match args.vendorId with
      | none => .error (.validationError .vendorIdRequired)
      | some vid =>
          if args.subcontractorId.isSome then
            .error (.validationError .bothVendorAndSubcontractor)
          else match findActiveVendor w vid with
          | none => .error .notFoundError
          | some v => .ok (some v, (none : Option SubcontractorRec))
    else
      match args.subcontractorId with
      | none => .error (.validationError .subcontractorIdRequired)
      | some sid =>
          if args.vendorId.isSome then
            .error (.validationError .bothVendorAndSubcontractor)
          else match findActiveSubcontractor w sid with
          | none => .error .notFoundError
          | some s => .ok ((none : Option VendorRec), some s)) :
        Except SvcErr (Option VendorRec × Option SubcontractorRec)) with
  | .error e => .error e
  | .ok (vendor, subcontractor) =>
  match args.siteId with
  | none => .error (.validationError .siteIdRequired)
  | some sid =>
  match findActiveSite w sid with
  | none => .error .notFoundError
  | some site =>
  match args.baseAmount with
  | none => .error (.validationError .baseAmountMustBePositive)
  | some base =>
  if base ≤ 0 then .error (.validationError .baseAmountMustBePositive)
  else
  let extra := args.extraAmount.getD 0
  if extra < 0 then .error (.validationError .extraAmountMustBeNonNegative)
  else if extra > 0 ∧ falsyStr args.extraReason then
    .error (.validationError .extraReasonRequired)
  else
  let overrideAudit : Bool := (et == "SUBCONTRACTOR") &&
    (match subcontractor with
     | some sub =>
         match sub.assignedSiteId with
         | some assigned => sid != assigned
         | none => false
     | none => false)
  match args.currency with
  | none => .error (.validationError .badCurrency)
  | some c =>
  if c.length ≠ 3 then .error (.validationError .badCurrency)
  else
    .ok { entityTypeStr := et, vendor := vendor,
          subcontractor := subcontractor, site := site,
          base := base, extra := extra, total := base + extra,
          currencyStr := c, overrideAudit := overrideAudit }

/-- The legacy (Phase 1) validation block of `add_request`; returns the
validated currency. -/
def validateLegacyFields (args : AddRequestArgs) : Except SvcErr String :=
  match args.amount with
  | none => .error (.validationError .amountMustBePositive)
  | some a =>
  if a ≤ 0 then .error (.validationError .amountMustBePositive)
  else
  match args.currency with
  | none => .error (.validationError .badCurrency)
  | some c =>
  if c.length ≠ 3 then .error (.validationError .badCurrency)
  else if falsyStr args.beneficiaryName ∨
      pyStrip (args.beneficiaryName.getD "") = "" then
    .error (.validationError .beneficiaryNameEmpty)
  else if falsyStr args.beneficiaryAccount ∨
      pyStrip (args.beneficiaryAccount.getD "") = "" then
    .error (.validationError .beneficiaryAccountEmpty)
  else if falsyStr args.purpose ∨ pyStrip (args.purpose.getD "") = "" then
    .error (.validationError .purposeEmpty)
  else .ok c

/-- `add_request(batch_id, creator_id, ...)`: idempotency replay; batch and
creator lookup; ownership (ADMIN bypasses); DRAFT-batch check; then the
ledger-driven or legacy branch; row creation with `version = 1`; idempotency
key persistence (code 201); `REQUEST_CREATED` audit entry. -/
def addRequest (w : World) (batchId creatorId : Nat) (args : AddRequestArgs) :
    Except SvcErr (World × RequestRec) :=
  match idemReplay w args.idempotencyKey .CREATE_PAYMENT_REQUEST with
  | some req => .ok (w, req)
  | none =>
  match findBatch w batchId with
  | none => .error .notFoundError
  | some batch =>
  match findUser w creatorId with
  | none => .error .notFoundError
  | some creator =>
  if creator.role ≠ .ADMIN ∧ batch.createdBy ≠ creatorId then
    .error .permissionDeniedError
  else if batch.status ≠ .DRAFT then
    .error (.invalidStateError (.cannotAddRequestBatchStatus batch.status))
  else if isClosedBatch batch.status then
    .error (.invalidStateError .cannotAddRequestClosedBatch)
  else
  match args.entityType with
  | some et =>
      match resolveLedgerFields w args et with
      | .error e => .error e
      | .ok res =>
          let w1 := if res.overrideAudit then
              appendAudit w ⟨.SUBCONTRACTOR_SITE_OVERRIDE, some creatorId,
                "PaymentRequest", none⟩
            else w
          let newReq : RequestRec :=
            { id := w1.nextRequestId, batchId := batchId, status := .DRAFT,
              amount := res.total,
              currency := pyStrip (pyUpper res.currencyStr),
              beneficiaryName := none, beneficiaryAccount := none,
              purpose := none,
              entityType := some et,
              vendorId := (res.vendor).map (fun v => v.id),
              subcontractorId := (res.subcontractor).map (fun s => s.id),
              siteId := some res.site.id,
              baseAmount := some res.base, extraAmount := some res.extra,
              extraReason := normComment args.extraReason,
              totalAmount := some res.total,
              vendorSnapshotName := (res.vendor).map (fun v => v.name),
              subcontractorSnapshotName :=
                (res.subcontractor).map (fun s => s.name),
              siteSnapshotCode := some res.site.code,
              createdBy := creatorId, updatedBy := none, version := 1 }
          let w2 := { w1 with
            requests := w1.requests ++ [newReq],
            nextRequestId := w1.nextRequestId + 1 }
          let w3 := match args.idempotencyKey with
            | some k => { w2 with idemKeys := w2.idemKeys ++
                [⟨k, .CREATE_PAYMENT_REQUEST, some newReq.id, 201⟩] }
            | none => w2
          let w4 := appendAudit w3
            ⟨.REQUEST_CREATED, some creatorId, "PaymentRequest", some newReq.id⟩
          .ok (w4, newReq)
  | none =>
      match validateLegacyFields args with
      | .error e => .error e
      | .ok c =>
          let newReq : RequestRec :=
            { id := w.nextRequestId, batchId := batchId, status := .DRAFT,
              amount := args.amount.getD 0,
              currency := pyStrip (pyUpper c),
              beneficiaryName := some (pyStrip (args.beneficiaryName.getD "")),
              beneficiaryAccount :=
                some (pyStrip (args.beneficiaryAccount.getD "")),
              purpose := some (pyStrip (args.purpose.getD "")),
              entityType := none, vendorId := none, subcontractorId := none,
              siteId := none, baseAmount := none, extraAmount := none,
              extraReason := none, totalAmount := none,
              vendorSnapshotName := none, subcontractorSnapshotName := none,
              siteSnapshotCode := none,
              createdBy := creatorId, updatedBy := none, version := 1 }
          let w2 := { w with
            requests := w.requests ++ [newReq],
            nextRequestId := w.nextRequestId + 1 }
          let w3 := match args.idempotencyKey with
            | some k => { w2 with idemKeys := w2.idemKeys ++
                [⟨k, .CREATE_PAYMENT_REQUEST, some newReq.id, 201⟩] }
            | none => w2
          let w4 := appendAudit w3
            ⟨.REQUEST_CREATED, some creatorId, "PaymentRequest", some newReq.id⟩
          .ok (w4, newReq)

/-! ## `update_request` (`services.py`) -/

/-- The `**fields` argument of `update_request`: each of the five updatable
fields is present (`some`) or absent (`none`). -/
structure UpdateFields where
  amount : Option Int
  currency : Option String
  beneficiaryName : Option String
  beneficiaryAccount : Option String
  purpose : Option String
deriving DecidableEq, Repr

/-- The field-validation/assignment block of `update_request`, in source
order; produces the updated in-memory row. -/
def applyUpdateFields (request : RequestRec) (fields : UpdateFields) :
    Except SvcErr RequestRec :=
  match ((match fields.amount with
    | none => .ok request
    | some a =>
        if a ≤ 0 then .error (.validationError .amountMustBePositive)
        else .ok { request with amount := a }) : Except SvcErr RequestRec) with
  | .error e => .error e
  | .ok r1 =>
  match ((match fields.currency with
    | none => .ok r1
    | some c =>
        if c.length ≠ 3 then .error (.validationError .badCurrency)
        else .ok { r1 with currency := pyStrip (pyUpper c) }) :
      Except SvcErr RequestRec) with
  | .error e => .error e
  | .ok r2 =>
  match ((match fields.beneficiaryName with
    | none => .ok r2
    | some b =>
        if pyStrip b = "" then .error (.validationError .beneficiaryNameEmpty)
        else .ok { r2 with beneficiaryName := some (pyStrip b) }) :
      Except SvcErr RequestRec) with
  | .error e => .error e
  | .ok r3 =>
  match ((match fields.beneficiaryAccount with
    | none => .ok r3
    | some b =>
        if pyStrip b = "" then .error (.validationError .beneficiaryAccountEmpty)
        else .ok { r3 with beneficiaryAccount := some (pyStrip b) }) :
      Except SvcErr RequestRec) with
  | .error e => .error e
  | .ok r4 =>
  match fields.purpose with
  | none => .ok r4
  | some p =>
      if pyStrip p = "" then .error (.validationError .purposeEmpty)
      else .ok { r4 with purpose := some (pyStrip p) }

/-- `update_request(request_id, batch_id, creator_id, **fields)`: lookups and
batch-membership check; ownership; DRAFT-only state check (the
financial-lock check for APPROVED/PAID is kept from the source although the
DRAFT check already rejects those states); closed-batch check; field
validation; save and `REQUEST_UPDATED` audit entry. -/
def updateRequest (w : World) (requestId batchId creatorId : Nat)
    (fields : UpdateFields) : Except SvcErr (World × RequestRec) :=
  match findRequest w requestId with
  | none => .error .notFoundError
  | some request =>
  if request.batchId ≠ batchId then .error .notFoundError
  else
  match findUser w creatorId with
  | none => .error .notFoundError
  | some creator =>
  match findBatch w request.batchId with
  | none => .error .notFoundError
  | some batch =>
  if creator.role ≠ .ADMIN ∧ batch.createdBy ≠ creatorId then
    .error .permissionDeniedError
  else if request.status ≠ .DRAFT then
    .error (.invalidStateError (.cannotUpdateRequestStatus request.status))
  else if request.status = .APPROVED ∨ request.status = .PAID then
    .error (.invalidStateError .financialFieldsLocked)
  else if isClosedBatch batch.status then
    .error (.invalidStateError .cannotUpdateClosedBatch)
  else
  match applyUpdateFields request fields with
  | .error e => .error e
  | .ok updated =>
      let updated2 := { updated with updatedBy := some creatorId }
      let w1 := saveRequest w requestId (fun _ => updated2)
      let w2 := appendAudit w1
        ⟨.REQUEST_UPDATED, some creatorId, "PaymentRequest", some requestId⟩
      .ok (w2, updated2)

/-! ## `submit_batch` and `cancel_batch` (`services.py`) -/

/-- The per-request pre-validation loop of `submit_batch`: every request must
be DRAFT, ledger-driven requests need a positive total and a site, legacy
requests need a positive amount and the beneficiary fields, and all need a
three-letter currency. -/
def checkSubmitRequest (r : RequestRec) : Except SvcErr Unit :=
  if r.status ≠ .DRAFT then
    .error (.invalidStateError (.requestsMustBeDraft r.id r.status))
  else
  match ((if r.entityType.isSome then
      if (match r.totalAmount with | none => true | some t => t ≤ 0) then
        .error (.preconditionFailedError (.invalidTotalAmount r.id))
      else if r.siteId.isNone then
        .error (.preconditionFailedError (.missingSite r.id))
      else .ok ()
    else
      if r.amount ≤ 0 then
        .error (.preconditionFailedError (.invalidAmount r.id))
      else if falsyStr r.beneficiaryName ∨ falsyStr r.beneficiaryAccount ∨
          falsyStr r.purpose then
        .error (.preconditionFailedError (.missingRequiredFields r.id))
      else .ok ()) : Except SvcErr Unit) with
  | .error e => .error e
  | .ok _ =>
      if r.currency = "" ∨ r.currency.length ≠ 3 then
        .error (.preconditionFailedError (.invalidCurrencyOnRequest r.id))
      else .ok ()

/-- Runs `checkSubmitRequest` over the batch contents in order, stopping at
the first failure (the whole submission is refused). -/
def checkSubmitRequests : List RequestRec → Except SvcErr Unit
  | [] => .ok ()
  | r :: rs =>
      match checkSubmitRequest r with
      | .error e => .error e
      | .ok _ => checkSubmitRequests rs

/-- One request's DRAFT → SUBMITTED → PENDING_APPROVAL cascade inside
`submit_batch`, with both transitions validated and audited (the second is a
system transition with no actor). -/
def submitOneRequest (w : World) (creatorId rid : Nat) : Except SvcErr World :=
  match findRequest w rid with
  | none => .error .notFoundError
  | some req =>
  match validateTransition .PaymentRequest req.status .SUBMITTED with
  | .error e => .error e
  | .ok _ =>
  let w1 := saveRequest w rid
    (fun r => { r with status := .SUBMITTED, updatedBy := some creatorId })
  let w2 := appendAudit w1
    ⟨.REQUEST_SUBMITTED, some creatorId, "PaymentRequest", some rid⟩
  match findRequest w2 rid with
  | none => .error .notFoundError
  | some req2 =>
  match validateTransition .PaymentRequest req2.status .PENDING_APPROVAL with
  | .error e => .error e
  | .ok _ =>
  let w3 := saveRequest w2 rid (fun r => { r with status := .PENDING_APPROVAL })
  .ok (appendAudit w3 ⟨.REQUEST_SUBMITTED, none, "PaymentRequest", some rid⟩)

/-- Folds `submitOneRequest` over the ids of the batch contents. -/
def submitAllRequests (w : World) (creatorId : Nat) :
    List Nat → Except SvcErr World
  | [] => .ok w
  | rid :: rest =>
      match submitOneRequest w creatorId rid with
      | .error e => .error e
      | .ok w1 => submitAllRequests w1 creatorId rest

/-- `submit_batch(batch_id, creator_id)`: lookups; ownership; DRAFT check with
the SUBMITTED idempotent-success branch; non-empty-batch precondition; the
all-or-nothing per-request validation; then batch → SUBMITTED (with
`submitted_at`), the per-request cascade, and batch → PROCESSING, each step
audited. -/
def submitBatch (w : World) (batchId creatorId : Nat) :
    Except SvcErr (World × BatchRec) :=
  match findBatch w batchId with
  | none => .error .notFoundError
  | some batch =>
  match findUser w creatorId with
  | none => .error .notFoundError
  | some creator =>
  if creator.role ≠ .ADMIN ∧ batch.createdBy ≠ creatorId then
    .error .permissionDeniedError
  else if batch.status ≠ .DRAFT then
    if batch.status = .SUBMITTED then .ok (w, batch)
    else .error (.invalidStateError (.cannotSubmitBatchStatus batch.status))
  else
  let reqs := batchRequests w batchId
  if reqs.isEmpty then .error (.preconditionFailedError .batchMustContainRequest)
  else
  match checkSubmitRequests reqs with
  | .error e => .error e
  | .ok _ =>
  let w1 := saveBatch w batchId
    (fun b => { b with status := .SUBMITTED, submittedAt := some w.now })
  let w2 := appendAudit w1
    ⟨.BATCH_SUBMITTED, some creatorId, "PaymentBatch", some batchId⟩
  match submitAllRequests w2 creatorId (reqs.map (fun r => r.id)) with
  | .error e => .error e
  | .ok w3 =>
  match findBatch w3 batchId with
  | none => .error .notFoundError
  | some batch2 =>
  match validateTransition .PaymentBatch batch2.status .PROCESSING with
  | .error e => .error e
  | .ok _ =>
  let w4 := saveBatch w3 batchId (fun b => { b with status := .PROCESSING })
  let w5 := appendAudit w4
    ⟨.BATCH_SUBMITTED, none, "PaymentBatch", some batchId⟩
  match findBatch w5 batchId with
  | none => .error .notFoundError
  | some batch3 => .ok (w5, batch3)

/-- `cancel_batch(batch_id, creator_id)`: lookups; ownership; DRAFT-only with
the CANCELLED idempotent-success branch; then batch → CANCELLED with
`completed_at` set and a `BATCH_CANCELLED` audit entry. -/
def cancelBatch (w : World) (batchId creatorId : Nat) :
    Except SvcErr (World × BatchRec) :=
  match findBatch w batchId with
  | none => .error .notFoundError
  | some batch =>
  match findUser w creatorId with
  | none => .error .notFoundError
  | some creator =>
  if creator.role ≠ .ADMIN ∧ batch.createdBy ≠ creatorId then
    .error .permissionDeniedError
  else if batch.status ≠ .DRAFT then
    if batch.status = .CANCELLED then .ok (w, batch)
    else .error (.invalidStateError (.cannotCancelBatchStatus batch.status))
  else
  let w1 := saveBatch w batchId
    (fun b => { b with status := .CANCELLED, completedAt := some w.now })
  let w2 := appendAudit w1
    ⟨.BATCH_CANCELLED, some creatorId, "PaymentBatch", some batchId⟩
  .ok (w2, { batch with status := .CANCELLED, completedAt := some w.now })

/-! ## Specification-side definitions and concrete stores used by the
claim theorems -/

/-- The transition table as the specification's words state it (claim C2):
PaymentRequest DRAFT → SUBMITTED/DRAFT, SUBMITTED → PENDING_APPROVAL,
PENDING_APPROVAL → APPROVED/REJECTED, APPROVED → PAID; PaymentBatch
DRAFT → SUBMITTED/CANCELLED, SUBMITTED → PROCESSING,
PROCESSING → COMPLETED; with the same-state DRAFT → DRAFT transition
explicitly legal. -/
def claimAllowedPair (e : EntityType) (c t : Status) : Bool :=
  match e with
  | .PaymentRequest =>
      (c == .DRAFT && (t == .SUBMITTED || t == .DRAFT)) ||
      (c == .SUBMITTED && t == .PENDING_APPROVAL) ||
      (c == .PENDING_APPROVAL && (t == .APPROVED || t == .REJECTED)) ||
      (c == .APPROVED && t == .PAID)
  | .PaymentBatch =>
      (c == .DRAFT && (t == .SUBMITTED || t == .CANCELLED)) ||
      (c == .SUBMITTED && t == .PROCESSING) ||
      (c == .PROCESSING && t == .COMPLETED) ||
      (c == .DRAFT && t == .DRAFT)

/-- Whether a `validate_transition` outcome is an `InvalidStateError`. -/
def isInvalidStateErr : Except SvcErr Bool → Bool
  | .error (.invalidStateError _) => true
  | _ => false

/-- Whether a service outcome is an `InvalidStateError`. -/
def svcInvalidState {α : Type} : Except SvcErr α → Bool
  | .error (.invalidStateError _) => true
  | _ => false

/-- `all_terminal` as `mark_paid` computes it: every request of the batch is
APPROVED, REJECTED or PAID. -/
def allRequestsTerminal (w : World) (bid : Nat) : Bool :=
  (batchRequests w bid).all
    (fun r => r.status == Status.APPROVED || r.status == Status.REJECTED ||
      r.status == Status.PAID)

/-- N retries of `approve_request` against one request, each with its own
idempotency key (the claim C3 scenario): run the attempts in sequence,
counting the successes and the conflict (`InvalidStateError`, HTTP 409)
failures; an error leaves the store unchanged (transaction rollback). -/
def approveAttempts (rid aid : Nat) (c : Option String) :
    List String → World → World × Nat × Nat
  | [], w => (w, 0, 0)
  | k :: ks, w =>
      match approveRequest w rid aid c (some k) with
      | .ok (w1, _) =>
          let rest := approveAttempts rid aid c ks w1
          (rest.1, rest.2.1 + 1, rest.2.2)
      | .error e =>
          let rest := approveAttempts rid aid c ks w
          (rest.1, rest.2.1,
            if e.code = some .INVALID_STATE then rest.2.2 + 1 else rest.2.2)

/-- §3 integrity invariant on one stored row: whenever `total_amount` is set,
it equals `base_amount + extra_amount`. -/
def totalsOk (r : RequestRec) : Bool :=
  match r.totalAmount with
  | none => true
  | some t => t == r.baseAmount.getD 0 + r.extraAmount.getD 0

/-- A legacy-shape `PaymentRequest` row used by the concrete stores. -/
def legacyReq (rid bid : Nat) (st : Status) (v : Nat) : RequestRec :=
  { id := rid, batchId := bid, status := st, amount := 100,
    currency := "USD", beneficiaryName := some "Acme",
    beneficiaryAccount := some "ACC-1", purpose := some "supplies",
    entityType := none, vendorId := none, subcontractorId := none,
    siteId := none, baseAmount := none, extraAmount := none,
    extraReason := none, totalAmount := none,
    vendorSnapshotName := none, subcontractorSnapshotName := none,
    siteSnapshotCode := none, createdBy := 1, updatedBy := none,
    version := v }

/-- Users present in every concrete store: a CREATOR (1), an APPROVER (2),
an ADMIN (3) and a VIEWER (4). -/
def baseUsers : List UserRec :=
  [⟨1, .CREATOR⟩, ⟨2, .APPROVER⟩, ⟨3, .ADMIN⟩, ⟨4, .VIEWER⟩]

/-- Batch 10 in PROCESSING state, created by user 1. -/
def procBatchRec : BatchRec :=
  { id := 10, title := "B", status := .PROCESSING, createdBy := 1,
    submittedAt := some 5, completedAt := none }

/-- A store whose batch 10 is PROCESSING with two PENDING_APPROVAL
requests 100 and 101. -/
def pendingWorld : World :=
  { users := baseUsers, vendors := [], subcontractors := [], sites := [],
    batches := [procBatchRec],
    requests := [legacyReq 100 10 .PENDING_APPROVAL 1,
                 legacyReq 101 10 .PENDING_APPROVAL 1],
    approvals := [], soas := [], idemKeys := [], audits := [],
    nextRequestId := 200, now := 42 }

/-- `pendingWorld` after request 100 was approved (status APPROVED, version
bumped, `ApprovalRecord` present) — request 100 is ready for `mark_paid`. -/
def approvedWorld : World :=
  { pendingWorld with
    requests := [legacyReq 100 10 .APPROVED 2,
                 legacyReq 101 10 .PENDING_APPROVAL 1],
    approvals := [⟨100, 2, .APPROVED, none⟩] }

/-- A storage-race store: request 100 still PENDING_APPROVAL although an
`ApprovalRecord` for it already exists (claim C8's scenario). -/
def raceWorld : World :=
  { pendingWorld with approvals := [⟨100, 2, .APPROVED, none⟩] }

/-- A store whose batch 10 is already COMPLETED while request 100 is still
APPROVED (its sibling 101 is PAID). -/
def completedWorld : World :=
  { pendingWorld with
    batches := [{ id := 10, title := "B", status := .COMPLETED,
                  createdBy := 1, submittedAt := some 5,
                  completedAt := some 7 }],
    requests := [legacyReq 100 10 .APPROVED 2, legacyReq 101 10 .PAID 3],
    approvals := [⟨100, 2, .APPROVED, none⟩, ⟨101, 2, .APPROVED, none⟩] }

/-- Request 100 as `mark_paid` leaves it: PAID, version bumped to 3,
updated by user 1. -/
def paidReq : RequestRec :=
  { legacyReq 100 10 .PAID 3 with updatedBy := some 1 }

/-- `approvedWorld` after `mark_paid` on request 100 by user 1: request 100
is PAID and audited; sibling 101 is still PENDING_APPROVAL, so the batch
stays PROCESSING and no SOA is generated. -/
def paidWorld : World :=
  { approvedWorld with
    requests := [paidReq, legacyReq 101 10 .PENDING_APPROVAL 1],
    audits := [⟨.REQUEST_PAID, some 1, "PaymentRequest", some 100⟩] }

/-- `pendingWorld` after request 100 was rejected by approver 2 (status
REJECTED, version bumped, `ApprovalRecord` with decision REJECTED). -/
def rejectedWorld : World :=
  { pendingWorld with
    requests := [{ legacyReq 100 10 .REJECTED 2 with updatedBy := some 2 },
                 legacyReq 101 10 .PENDING_APPROVAL 1],
    approvals := [⟨100, 2, .REJECTED, none⟩],
    audits := [⟨.APPROVAL_RECORDED, some 2, "PaymentRequest", some 100⟩] }

/-- A store hosting one request per replayable operation: requests 100 and
101 PENDING_APPROVAL (for approve/reject) and request 102 APPROVED (for
mark_paid), all in PROCESSING batch 10. -/
def c4World : World :=
  { pendingWorld with
    requests := [legacyReq 100 10 .PENDING_APPROVAL 1,
                 legacyReq 101 10 .PENDING_APPROVAL 1,
                 legacyReq 102 10 .APPROVED 2] }

/-- A first keyed `reject_request` against PENDING_APPROVAL request 100. -/
def rejectRetryFirst : Except SvcErr (World × RequestRec) :=
  rejectRequest pendingWorld 100 2 none (some "key-A")

/-- The retry of the same reject with a different idempotency key, run
against the store the first attempt left behind. -/
def rejectRetrySecond : Except SvcErr (World × RequestRec) :=
  match rejectRetryFirst with
  | .error e => .error e
  | .ok (w1, _) => rejectRequest w1 100 2 none (some "key-B")

/-- A store whose batch 10 is PROCESSING while requests 100 and 101 are
still DRAFT. -/
def draftReqWorld : World :=
  { pendingWorld with
    requests := [legacyReq 100 10 .DRAFT 1, legacyReq 101 10 .DRAFT 1] }

/-- The JSON body of `POST /batches/.../requests` as `views.add_request`
reads it: the view extracts exactly these keys with `request.data.get`, and
a client-supplied `totalAmount` is present in the body but never passed on
("Ignore client-provided totalAmount (server computes it)"). -/
structure RequestPayload where
  entityType : Option String
  vendorId : Option Nat
  subcontractorId : Option Nat
  siteId : Option Nat
  baseAmount : Option Int
  extraAmount : Option Int
  extraReason : Option String
  amount : Option Int
  currency : Option String
  beneficiaryName : Option String
  beneficiaryAccount : Option String
  purpose : Option String
  totalAmount : Option Int
deriving DecidableEq, Repr

/-- The argument record `views.add_request` builds for
`services.add_request`; the payload's `totalAmount` is not read. -/
def argsOfPayload (p : RequestPayload) (key : Option String) :
    AddRequestArgs :=
  { amount := p.amount, currency := p.currency,
    beneficiaryName := p.beneficiaryName,
    beneficiaryAccount := p.beneficiaryAccount, purpose := p.purpose,
    entityType := p.entityType, vendorId := p.vendorId,
    subcontractorId := p.subcontractorId, siteId := p.siteId,
    baseAmount := p.baseAmount, extraAmount := p.extraAmount,
    extraReason := p.extraReason, idempotencyKey := key }

/-- `views.add_request` followed by `services.add_request`. -/
def addRequestView (w : World) (batchId userId : Nat) (p : RequestPayload)
    (key : Option String) : Except SvcErr (World × RequestRec) :=
  addRequest w batchId userId (argsOfPayload p key)

/-- A store with an active vendor 20, an active site 30 and an empty DRAFT
batch 11 owned by user 1, ready for ledger-driven `add_request`. -/
def ledgerWorld : World :=
  { users := baseUsers,
    vendors := [⟨20, "VendorX", true⟩],
    subcontractors := [],
    sites := [⟨30, "S1", true⟩],
    batches := [{ id := 11, title := "LB", status := .DRAFT,
                  createdBy := 1, submittedAt := none, completedAt := none }],
    requests := [], approvals := [], soas := [], idemKeys := [],
    audits := [], nextRequestId := 300, now := 50 }

/-- A ledger-driven request body: base 100, extra 25, and a client-claimed
total of 999 that the server must discard. -/
def ledgerPayload : RequestPayload :=
  { entityType := some "VENDOR", vendorId := some 20,
    subcontractorId := none, siteId := some 30, baseAmount := some 100,
    extraAmount := some 25, extraReason := some "freight", amount := none,
    currency := some "USD", beneficiaryName := none,
    beneficiaryAccount := none, purpose := none, totalAmount := some 999 }

/-- The request row `add_request` creates for `ledgerPayload`: the persisted
total is the server-computed 125 = 100 + 25, not the client's 999. -/
def ledgerResultReq : RequestRec :=
  { id := 300, batchId := 11, status := .DRAFT, amount := 125,
    currency := "USD", beneficiaryName := none, beneficiaryAccount := none,
    purpose := none, entityType := some "VENDOR", vendorId := some 20,
    subcontractorId := none, siteId := some 30, baseAmount := some 100,
    extraAmount := some 25, extraReason := some "freight",
    totalAmount := some 125, vendorSnapshotName := some "VendorX",
    subcontractorSnapshotName := none, siteSnapshotCode := some "S1",
    createdBy := 1, updatedBy := none, version := 1 }

/-- `ledgerWorld` after the ledger-driven `add_request` succeeded. -/
def ledgerResultWorld : World :=
  { ledgerWorld with
    requests := [ledgerResultReq],
    audits := [⟨.REQUEST_CREATED, some 1, "PaymentRequest", some 300⟩],
    nextRequestId := 301 }

/-! # Claim theorems -/

/-- C2: for both entity kinds and every pair of states,
`validate_transition` succeeds exactly when the pair is in the
specification's fixed transition table (same-state DRAFT → DRAFT explicitly
legal); every other pair raises `InvalidStateError`; and when the current
state is terminal for its kind (PaymentRequest: REJECTED, PAID;
PaymentBatch: COMPLETED, CANCELLED) the error is the distinct
terminality message carrying the disallowed pair. -/
theorem validate_transition_matches_spec_table (e : EntityType)
    (c t : Status) :
    (validateTransition e c t = .ok true ↔ claimAllowedPair e c t = true) ∧
    (claimAllowedPair e c t = false →
      isInvalidStateErr (validateTransition e c t) = true) ∧
    (isTerminalState e c = true ↔
      (e = .PaymentRequest ∧ (c = .REJECTED ∨ c = .PAID)) ∨
      (e = .PaymentBatch ∧ (c = .COMPLETED ∨ c = .CANCELLED))) ∧
    (isTerminalState e c = true →
      validateTransition e c t =
        .error (.invalidStateError (.terminalState e c t))) := by
  cases e <;> cases c <;> cases t <;> decide

/-- Witness for C2 at concrete inputs: PENDING_APPROVAL → APPROVED is
accepted, REJECTED is terminal and DRAFT → PAID is refused with an
`InvalidStateError`. -/
theorem validate_transition_matches_spec_table_witness :
    validateTransition .PaymentRequest .PENDING_APPROVAL .APPROVED =
      .ok true ∧
    validateTransition .PaymentRequest .REJECTED .APPROVED =
      .error (.invalidStateError
        (.terminalState .PaymentRequest .REJECTED .APPROVED)) ∧
    isInvalidStateErr (validateTransition .PaymentRequest .DRAFT .PAID) =
      true := by
  refine ⟨?_, ?_, ?_⟩
  · exact (validate_transition_matches_spec_table .PaymentRequest
      .PENDING_APPROVAL .APPROVED).1.mpr (by decide)
  · exact (validate_transition_matches_spec_table .PaymentRequest
      .REJECTED .APPROVED).2.2.2 (by decide)
  · exact (validate_transition_matches_spec_table .PaymentRequest
      .DRAFT .PAID).2.1 (by decide)

/-- C9: the claim says an ADMIN can mark an approved request paid, as the
spec's overview, the view-level permission class (`IsCreatorOrApprover`
allows CREATOR, APPROVER and ADMIN) and the repository's own test
`test_admin_can_mark_paid` (expects HTTP 200) all state — but the
service-layer role check `actor.role not in ("CREATOR", "APPROVER")`
omits ADMIN, so `mark_paid` by the ADMIN user on the APPROVED request 100
raises `PermissionDeniedError` and the request stays APPROVED. -/
theorem mark_paid_rejects_admin :
    markPaid approvedWorld 100 3 none = .error .permissionDeniedError ∧
    (findUser approvedWorld 3).map (fun u => u.role) = some .ADMIN ∧
    (findRequest approvedWorld 100).map (fun r => r.status) =
      some .APPROVED := by
  decide

/-- Pairing a list with its image under `g`. -/
theorem zip_self_map {α : Type} (l : List α) (g : α → α) :
    l.zip (l.map g) = l.map (fun a => (a, g a)) := by
  induction l with
  | nil => rfl
  | cons a l ih => simp [ih]

/-- `find?` by id commutes with mapping an id-preserving row transform. -/
theorem find_id_map (l : List RequestRec) (f : RequestRec → RequestRec)
    (hf : ∀ r, (f r).id = r.id) (x : Nat) :
    List.find? (fun r => r.id == x) (l.map f) =
      (List.find? (fun r => r.id == x) l).map f := by
  induction l with
  | nil => rfl
  | cons a l ih =>
      simp only [List.map_cons, List.find?_cons, hf]
      by_cases h : (a.id == x) = true
      · simp [h]
      · simp [h, ih]

/-- A list containing an element satisfying `p` has nonzero `countP`. -/
theorem countP_ne_zero_of_mem {α : Type} {l : List α} {p : α → Bool} {a : α}
    (ha : a ∈ l) (hp : p a = true) : l.countP p ≠ 0 := by
  have : 0 < l.countP p := List.countP_pos_iff.mpr ⟨a, ha, hp⟩
  omega

/-- `find?` by id over batch rows commutes with an id-preserving transform. -/
theorem find_id_map_batch (l : List BatchRec) (f : BatchRec → BatchRec)
    (hf : ∀ b, (f b).id = b.id) (x : Nat) :
    List.find? (fun b => b.id == x) (l.map f) =
      (List.find? (fun b => b.id == x) l).map f := by
  induction l with
  | nil => rfl
  | cons a l ih =>
      simp only [List.map_cons, List.find?_cons, hf]
      by_cases h : (a.id == x) = true
      · simp [h]
      · simp [h, ih]

/-- The SOA-generation loop never touches the request rows. -/
theorem soaFold_requests (rs : List RequestRec) (acc : World) :
    (rs.foldl soaGenStep acc).requests = acc.requests := by
  induction rs generalizing acc with
  | nil => rfl
  | cons r rs ih => simp [List.foldl_cons, soaGenStep, ih]

/-- The SOA-generation loop never touches the batch rows. -/
theorem soaFold_batches (rs : List RequestRec) (acc : World) :
    (rs.foldl soaGenStep acc).batches = acc.batches := by
  induction rs generalizing acc with
  | nil => rfl
  | cons r rs ih => simp [List.foldl_cons, soaGenStep, ih]

/-- The SOA-generation loop only appends `SOAVersion` rows. -/
theorem soaFold_soas_mono (rs : List RequestRec) (acc : World) (s : SOARec)
    (hs : s ∈ acc.soas) : s ∈ (rs.foldl soaGenStep acc).soas := by
  induction rs generalizing acc with
  | nil => exact hs
  | cons r rs ih =>
      apply ih
      simp only [soaGenStep, List.mem_append]
      exact Or.inl hs

/-- The SOA-generation loop creates a GENERATED-source row for every request
it visits. -/
theorem soaFold_covers (rs : List RequestRec) (acc : World) (r0 : RequestRec)
    (h : r0 ∈ rs) :
    ∃ s ∈ (rs.foldl soaGenStep acc).soas,
      s.requestId = r0.id ∧ s.source = .GENERATED := by
  induction rs generalizing acc with
  | nil => cases h
  | cons r rs ih =>
      rw [List.foldl_cons]
      rcases List.mem_cons.mp h with rfl | hmem
      · exact ⟨⟨r0.id, nextSoaVersion acc.soas r0.id, .GENERATED, none⟩,
          soaFold_soas_mono _ _ _ (by simp [soaGenStep]), rfl, rfl⟩
      · exact ih (soaGenStep acc r) hmem

/-- `generate_soa_for_batch` never touches the request rows. -/
theorem genSoa_requests (w : World) (bid : Nat) :
    (generateSoaForBatch w bid).requests = w.requests := by
  unfold generateSoaForBatch
  cases findBatch w bid with
  | none => rfl
  | some bb =>
      by_cases hg : hasGeneratedSoa w bid = true
      · simp [hg]
      · simp only [Bool.not_eq_true] at hg
        simp [hg, appendAudit, soaFold_requests]

/-- `generate_soa_for_batch` never touches the batch rows. -/
theorem genSoa_batches (w : World) (bid : Nat) :
    (generateSoaForBatch w bid).batches = w.batches := by
  unfold generateSoaForBatch
  cases findBatch w bid with
  | none => rfl
  | some bb =>
      by_cases hg : hasGeneratedSoa w bid = true
      · simp [hg]
      · simp only [Bool.not_eq_true] at hg
        simp [hg, appendAudit, soaFold_batches]

/-- After invoking `generate_soa_for_batch` on an existing batch with at
least one request row, the batch carries a GENERATED SOA version. -/
theorem genSoa_generated (w : World) (bid : Nat)
    (hb : (findBatch w bid).isSome = true)
    (hex : ∃ r0 ∈ w.requests, (r0.batchId == bid) = true) :
    hasGeneratedSoa (generateSoaForBatch w bid) bid = true := by
  obtain ⟨r0, hr0, hrb⟩ := hex
  unfold generateSoaForBatch
  cases hfb : findBatch w bid with
  | none => rw [hfb] at hb; cases hb
  | some bb =>
  by_cases hg : hasGeneratedSoa w bid = true
  · simp [hg]
  · simp only [Bool.not_eq_true] at hg
    rw [hg]
    simp only [Bool.false_eq_true, if_false]
    have hmem : r0 ∈ batchRequests w bid := by
      simp [batchRequests, List.mem_filter, hr0, hrb]
    obtain ⟨s, hs, hsid, hssrc⟩ :=
      soaFold_covers (batchRequests w bid) w r0 hmem
    simp only [hasGeneratedSoa, appendAudit, List.any_eq_true]
    refine ⟨s, hs, ?_⟩
    have hreq : ((batchRequests w bid).foldl soaGenStep w).requests =
        w.requests := soaFold_requests _ _
    rw [hreq]
    simp only [Bool.and_eq_true, List.any_eq_true]
    exact ⟨by simp [hssrc], r0, hr0, by simp [hsid, hrb]⟩

/-- C5 counterexample: on a zero-row match, `version_locked_update` raises a
plain `InvalidStateError` — `versioning.py` raises `InvalidStateError`
directly and `core/exceptions.py` defines no `ConcurrentModificationError`
class, so the surfaced error kind (code `INVALID_STATE`) is the same kind as
any other `InvalidStateError`, not a distinct one. -/
theorem version_mismatch_error_not_distinct_kind :
    versionLockedUpdate [] (fun _ => true) 1 (fun r => r) =
      .error (.invalidStateError (.concurrentModification 1)) ∧
    SvcErr.code (.invalidStateError (.concurrentModification 1)) =
      SvcErr.code (.invalidStateError (.cannotMarkPaidStatus .DRAFT)) := by
  decide

/-- C5 amended: when zero rows match the expected version,
`version_locked_update` raises an `InvalidStateError` carrying the
distinct concurrent-modification message (the code defines no separate
`ConcurrentModificationError` kind); when exactly one row matches, it
returns count 1, changes exactly one row, and increments that row's
version counter by 1. -/
theorem version_locked_update_zero_one (rows : List RequestRec)
    (pred : RequestRec → Bool) (cv : Nat) (upd : RequestRec → RequestRec) :
    (rows.countP (fun r => pred r && (r.version == cv)) = 0 →
      versionLockedUpdate rows pred cv upd =
        .error (.invalidStateError (.concurrentModification cv))) ∧
    (rows.countP (fun r => pred r && (r.version == cv)) = 1 →
      ∃ rows2, versionLockedUpdate rows pred cv upd = .ok (rows2, 1) ∧
        rows2.length = rows.length ∧
        (rows.zip rows2).countP (fun p => p.2 != p.1) = 1 ∧
        ∀ p ∈ rows.zip rows2, p.2 ≠ p.1 →
          p.2.version = p.1.version + 1) := by
  constructor
  · intro h0
    simp only [versionLockedUpdate, h0]
    rfl
  · intro h1
    refine ⟨rows.map (fun r =>
      if pred r && (r.version == cv) then
        { upd r with version := r.version + 1 } else r), ?_, ?_, ?_, ?_⟩
    · simp only [versionLockedUpdate, h1]
      rfl
    · simp
    · rw [zip_self_map, List.countP_map]
      have hcong : List.countP
          ((fun (p : RequestRec × RequestRec) => p.2 != p.1) ∘
            (fun r => (r, if pred r && (r.version == cv) then
              { upd r with version := r.version + 1 } else r))) rows =
          List.countP (fun r => pred r && (r.version == cv)) rows := by
        apply List.countP_congr
        intro r _
        simp only [Function.comp_apply, bne_iff_ne, ne_eq, decide_eq_true_eq]
        by_cases hr : (pred r && (r.version == cv)) = true
        · simp only [hr, if_true, iff_true]
          intro hc
          have hv : r.version + 1 = r.version :=
            congrArg RequestRec.version hc
          omega
        · simp [hr]
      rw [hcong, h1]
    · intro p hp hne
      rw [zip_self_map] at hp
      obtain ⟨r, _, rfl⟩ := List.mem_map.mp hp
      by_cases hr : (pred r && (r.version == cv)) = true
      · simp only [hr, if_true]
      · exfalso
        apply hne
        simp [hr]

/-- Witness for C5 at concrete inputs: an empty row set raises the
concurrent-modification `InvalidStateError`, and a singleton matching row
set updates exactly one row, bumping its version from 2 to 3. -/
theorem version_locked_update_zero_one_witness :
    versionLockedUpdate [] (fun r => r.id == 100) 2
        (fun r => { r with status := .PAID }) =
      .error (.invalidStateError (.concurrentModification 2)) ∧
    (∃ rows2, versionLockedUpdate [legacyReq 100 10 .APPROVED 2]
        (fun r => r.id == 100) 2 (fun r => { r with status := .PAID }) =
          .ok (rows2, 1) ∧
      rows2.length = 1 ∧
      ([legacyReq 100 10 .APPROVED 2].zip rows2).countP
        (fun p => p.2 != p.1) = 1 ∧
      ∀ p ∈ [legacyReq 100 10 .APPROVED 2].zip rows2, p.2 ≠ p.1 →
        p.2.version = p.1.version + 1) := by
  constructor
  · exact (version_locked_update_zero_one [] (fun r => r.id == 100) 2
      (fun r => { r with status := .PAID })).1 (by decide)
  · exact (version_locked_update_zero_one [legacyReq 100 10 .APPROVED 2]
      (fun r => r.id == 100) 2 (fun r => { r with status := .PAID })).2
      (by decide)

/-- C10: `mark_paid` on an APPROVED request succeeds even when the parent
batch is already COMPLETED: the request transitions to PAID while the batch
row (status and `completed_at`) and the stored `SOAVersion` rows are
untouched, because the completion cascade and SOA generation run only when
the batch status is PROCESSING. -/
theorem mark_paid_on_completed_batch_frame
    (w : World) (rid aid : Nat) (k : Option String)
    (req : RequestRec) (actor : UserRec) (b : BatchRec)
    (Hidem : idemReplay w k .MARK_PAYMENT_PAID = none)
    (Hfr : findRequest w rid = some req)
    (Hst : req.status = .APPROVED)
    (Hfu : findUser w aid = some actor)
    (Hrole : actor.role = .CREATOR ∨ actor.role = .APPROVER)
    (Hfb : findBatch w req.batchId = some b)
    (Hbst : b.status = .COMPLETED) :
    ∃ w2 req2, markPaid w rid aid k = .ok (w2, req2) ∧
      req2.status = .PAID ∧ req2.id = req.id ∧
      findBatch w2 req.batchId = some b ∧
      w2.soas = w.soas ∧ w2.batches = w.batches := by
  have hrid : req.id = rid := by
    have := List.find?_some Hfr
    simpa using this
  have hmem : req ∈ w.requests := List.mem_of_find?_eq_some Hfr
  have hv : validateTransition .PaymentRequest .APPROVED .PAID = .ok true := by
    decide
  -- the row itself matches the version-locked filter
  have hhit : (fun r => r.id == rid && r.status == Status.APPROVED &&
      (r.version == req.version)) req = true := by
    simp [hrid, Hst]
  have Hfr2 : List.find? (fun r => r.id == rid) w.requests = some req := Hfr
  have hcne : List.countP (fun r => (r.id == rid && r.status == Status.APPROVED &&
      (r.version == req.version)) && (r.version == req.version)) w.requests ≠ 0 := by
    apply countP_ne_zero_of_mem hmem
    simp [hrid, Hst]
  have hfcond : (req.id == rid && req.status == Status.APPROVED &&
      (req.version == req.version) && (req.version == req.version)) = true := by
    simp [hrid, Hst]
  have Hfb2 : List.find? (fun x => x.id == req.batchId) w.batches = some b := Hfb
  have hidp : ∀ r : RequestRec,
      ((fun r => if (r.id == rid && r.status == Status.APPROVED &&
          (r.version == req.version) && (r.version == req.version)) = true then
          ({ r with
              status := Status.PAID,
              updatedBy := some aid,
              version := r.version + 1 } : RequestRec)
        else r) r).id = r.id := by
    intro r
    by_cases h : (r.id == rid && r.status == Status.APPROVED &&
        (r.version == req.version) && (r.version == req.version)) = true
    · simp [h]
    · simp [h]
  rcases Hrole with hrole | hrole <;> rcases k with _ | s
  all_goals
    simp only [markPaid, Hidem, Hfr, Hfu, hrole]
    rw [if_neg (by simp), if_neg (by simp [Hst]), Hst]
    simp only [hv, versionLockedUpdate]
    rw [if_neg hcne]
    simp only [hcne, findRequest, if_false]
    rw [find_id_map _ _ hidp]
    rw [Hfr2]
    simp only [Option.map_some', hfcond, if_true, findBatch, appendAudit]
    rw [Hfb2]
    simp only [cascadeCompletion, Hbst]
    rw [if_neg (by simp)]
    refine ⟨_, _, rfl, rfl, rfl, ?_, rfl, rfl⟩
    simpa [findBatch] using Hfb2

/-- Witness for C10: in `completedWorld` (batch COMPLETED, request 100
APPROVED) the CREATOR user 1 can mark request 100 paid; the batch row and
SOA set stay as they were. -/
theorem mark_paid_on_completed_batch_frame_witness :
    ∃ w2 req2, markPaid completedWorld 100 1 none = .ok (w2, req2) ∧
      req2.status = .PAID ∧ req2.id = (legacyReq 100 10 .APPROVED 2).id ∧
      findBatch w2 (legacyReq 100 10 .APPROVED 2).batchId =
        some { id := 10, title := "B", status := .COMPLETED, createdBy := 1,
               submittedAt := some 5, completedAt := some 7 } ∧
      w2.soas = completedWorld.soas ∧ w2.batches = completedWorld.batches :=
  mark_paid_on_completed_batch_frame completedWorld 100 1 none
    (legacyReq 100 10 .APPROVED 2) ⟨1, .CREATOR⟩
    { id := 10, title := "B", status := .COMPLETED, createdBy := 1,
      submittedAt := some 5, completedAt := some 7 }
    (by decide) (by decide) (by decide) (by decide) (Or.inl rfl)
    (by decide) rfl

/-- C1: whenever `mark_paid` succeeds in transitioning an APPROVED request
to PAID, the parent batch ends COMPLETED exactly when the cascade check
found it PROCESSING with every request of the batch in a terminal state
(APPROVED, REJECTED or PAID): in that case the batch becomes COMPLETED and
SOA generation is invoked (the batch carries a GENERATED SOA version
afterwards); otherwise a PROCESSING batch remains PROCESSING with the SOA
rows untouched. -/
theorem batch_completion_cascade
    (w w2 : World) (rid aid : Nat) (k : Option String)
    (req req2 : RequestRec) (b : BatchRec)
    (Hok : markPaid w rid aid k = .ok (w2, req2))
    (Hidem : idemReplay w k .MARK_PAYMENT_PAID = none)
    (Hfr : findRequest w rid = some req)
    (Hst : req.status = .APPROVED)
    (Hfb : findBatch w req.batchId = some b) :
    req2.status = .PAID ∧
    (((findBatch w2 req.batchId).map BatchRec.status = some .COMPLETED ∧
        b.status ≠ .COMPLETED) ↔
      (b.status = .PROCESSING ∧ allRequestsTerminal w2 req.batchId = true)) ∧
    (b.status = .PROCESSING → allRequestsTerminal w2 req.batchId = true →
      (findBatch w2 req.batchId).map BatchRec.status = some .COMPLETED ∧
        hasGeneratedSoa w2 req.batchId = true) ∧
    (b.status = .PROCESSING → allRequestsTerminal w2 req.batchId = false →
      findBatch w2 req.batchId = some b ∧ w2.soas = w.soas) := by
  have hrid : req.id = rid := by
    have := List.find?_some Hfr
    simpa using this
  have hbid : b.id = req.batchId := by
    have := List.find?_some Hfb
    simpa using this
  have hmem : req ∈ w.requests := List.mem_of_find?_eq_some Hfr
  have hv : validateTransition .PaymentRequest .APPROVED .PAID = .ok true := by
    decide
  have hv2 : validateTransition .PaymentBatch .PROCESSING .COMPLETED =
      .ok true := by decide
  have Hfr2 : List.find? (fun r => r.id == rid) w.requests = some req := Hfr
  have Hfb2 : List.find? (fun x => x.id == req.batchId) w.batches = some b := Hfb
  have hfcond : (req.id == rid && req.status == Status.APPROVED &&
      (req.version == req.version) && (req.version == req.version)) = true := by
    simp [hrid, Hst]
  have hidp : ∀ r : RequestRec,
      ((fun r => if (r.id == rid && r.status == Status.APPROVED &&
          (r.version == req.version) && (r.version == req.version)) = true then
          ({ r with
              status := Status.PAID,
              updatedBy := some aid,
              version := r.version + 1 } : RequestRec)
        else r) r).id = r.id := by
    intro r
    by_cases h : (r.id == rid && r.status == Status.APPROVED &&
        (r.version == req.version) && (r.version == req.version)) = true
    · simp [h]
    · simp [h]
  rcases k with _ | ks
  all_goals
    simp only [markPaid, Hidem, Hfr] at Hok
    split at Hok
    · exact absurd Hok (by simp)
    next actor hactor =>
    split at Hok
    · exact absurd Hok (by simp)
    split at Hok
    next hneq => exact absurd Hst (by simpa using hneq)
    next hneq =>
    rw [Hst] at Hok
    simp only [hv, versionLockedUpdate] at Hok
    split at Hok
    · exact absurd Hok (by simp)
    next hcnz =>
    split at Hok
    next hcz => exact absurd Hok (by simp)
    next hcz =>
    split at hcnz
    next hzero => exact absurd hcnz (by simp)
    next hzero =>
    simp only [Except.ok.injEq, Prod.mk.injEq] at hcnz
    obtain ⟨hrows, hcnt⟩ := hcnz
    subst hrows
    simp only [findRequest] at Hok
    split at Hok
    · exact absurd Hok (by simp)
    next refreshed hrefr =>
    rw [find_id_map _ _ hidp, Hfr2] at hrefr
    simp only [Option.map_some', hfcond, if_true, Option.some.injEq] at hrefr
    subst hrefr
    simp only [findBatch, appendAudit, Hfb2] at Hok
    simp only [cascadeCompletion] at Hok
    split at Hok
    next e hsc => exact absurd Hok (by simp)
    next w7 hsc =>
    simp only [Except.ok.injEq, Prod.mk.injEq] at Hok
    obtain ⟨hw2, hreq2⟩ := Hok
    subst hw2
    subst hreq2
    split at hsc
    next hb =>
      split at hsc
      next ht =>
        rw [hb] at hsc
        simp only [hv2, Except.ok.injEq] at hsc
        subst hsc
        have hgid : ∀ b2 : BatchRec,
            ((fun b2 => if b2.id == b.id then
                ({ b2 with
                    status := Status.COMPLETED,
                    completedAt := some w.now } : BatchRec)
              else b2) b2).id = b2.id := by
          intro b2
          by_cases h : (b2.id == b.id) = true
          · simp [h]
          · simp [h]
        have Hfb3 : List.find? (fun x => x.id == b.id) w.batches = some b := by
          rw [hbid]; exact Hfb2
        simp only [batchRequests, hbid] at ht
        refine ⟨rfl, ?_, ?_, ?_⟩
        · apply iff_of_true
          · constructor
            · simp only [findBatch, genSoa_batches, appendAudit, saveBatch]
              rw [← hbid, find_id_map_batch _ _ hgid, Hfb3]
              simp
            · rw [hb]; simp
          · refine ⟨hb, ?_⟩
            simp only [allRequestsTerminal, batchRequests, genSoa_requests,
              appendAudit, saveBatch]
            exact ht
        · intro _ _
          constructor
          · simp only [findBatch, genSoa_batches, appendAudit, saveBatch]
            rw [← hbid, find_id_map_batch _ _ hgid, Hfb3]
            simp
          · rw [← hbid]
            refine genSoa_generated _ _ ?_ ?_
            · simp only [findBatch, appendAudit, saveBatch]
              rw [find_id_map_batch _ _ hgid, Hfb3]
              simp
            · simp only [appendAudit, saveBatch]
              exact ⟨_, List.mem_map_of_mem _ hmem, by simp [hrid, Hst, hbid]⟩
        · intro _ hfalse
          simp only [allRequestsTerminal, batchRequests, genSoa_requests,
            appendAudit, saveBatch] at hfalse
          rw [ht] at hfalse
          cases hfalse
      next ht =>
        simp only [Except.ok.injEq] at hsc
        subst hsc
        simp only [batchRequests, hbid] at ht
        refine ⟨rfl, ?_, ?_, ?_⟩
        · constructor
          · rintro ⟨h1, _⟩
            simp only [findBatch, appendAudit, Hfb2, Option.map_some',
              hb] at h1
            exact absurd h1 (by simp)
          · rintro ⟨_, h2⟩
            simp only [allRequestsTerminal, batchRequests] at h2
            exact absurd h2 ht
        · intro _ hcontra
          simp only [allRequestsTerminal, batchRequests] at hcontra
          exact absurd hcontra ht
        · intro _ _
          constructor
          · simp only [findBatch, appendAudit]
            exact Hfb2
          · rfl
    next hb =>
      simp only [Except.ok.injEq] at hsc
      subst hsc
      refine ⟨rfl, ?_, ?_, ?_⟩
      · constructor
        · rintro ⟨h1, h2⟩
          simp only [findBatch, appendAudit, Hfb2, Option.map_some'] at h1
          exact absurd (by simpa using h1) h2
        · rintro ⟨h1, _⟩
          exact absurd h1 hb
      · intro h1 _
        exact absurd h1 hb
      · intro h1 _
        exact absurd h1 hb

/-- Witness for C1: in `approvedWorld` (batch PROCESSING, request 100
APPROVED, sibling 101 still PENDING_APPROVAL) user 1 marks request 100
paid; instantiating the cascade theorem there shows the batch stays
PROCESSING and no SOA row appears. -/
theorem batch_completion_cascade_witness :
    paidReq.status = .PAID ∧
    (((findBatch paidWorld (legacyReq 100 10 .APPROVED 2).batchId).map
          BatchRec.status = some .COMPLETED ∧
        procBatchRec.status ≠ .COMPLETED) ↔
      (procBatchRec.status = .PROCESSING ∧
        allRequestsTerminal paidWorld
          (legacyReq 100 10 .APPROVED 2).batchId = true)) ∧
    (procBatchRec.status = .PROCESSING →
      allRequestsTerminal paidWorld
        (legacyReq 100 10 .APPROVED 2).batchId = true →
      (findBatch paidWorld (legacyReq 100 10 .APPROVED 2).batchId).map
          BatchRec.status = some .COMPLETED ∧
        hasGeneratedSoa paidWorld
          (legacyReq 100 10 .APPROVED 2).batchId = true) ∧
    (procBatchRec.status = .PROCESSING →
      allRequestsTerminal paidWorld
        (legacyReq 100 10 .APPROVED 2).batchId = false →
      findBatch paidWorld (legacyReq 100 10 .APPROVED 2).batchId =
          some procBatchRec ∧
        paidWorld.soas = approvedWorld.soas) :=
  batch_completion_cascade approvedWorld paidWorld 100 1 none
    (legacyReq 100 10 .APPROVED 2) paidReq procBatchRec
    (by decide) (by decide) (by decide) (by decide) (by decide)

/-- C8 counterexample: in `raceWorld` (request 100 PENDING_APPROVAL with an
`ApprovalRecord` already present, idempotency lookup missing for key "kX"),
`approve_request` does NOT treat the situation as idempotent success: it has
no existing-record check, so `ApprovalRecord.objects.create` hits the
one-to-one uniqueness constraint and the raw storage violation propagates
to the caller. -/
theorem approve_existing_record_uniqueness_escapes :
    approveRequest raceWorld 100 2 none (some "kX") =
      .error .integrityViolation ∧
    hasApprovalFor raceWorld 100 = true ∧
    (findRequest raceWorld 100).map (fun r => r.status) =
      some .PENDING_APPROVAL := by
  decide

/-- C8 amended: when an `ApprovalRecord` already exists for a
PENDING_APPROVAL request and the idempotency-key lookup misses,
`reject_request` detects the existing record (`hasattr(request, "approval")`)
and returns the current entity with the store unchanged — but
`approve_request` has no such check: its `ApprovalRecord` insert violates
the one-to-one constraint and the raw storage uniqueness violation
propagates to the caller. -/
theorem approval_record_race_asymmetry (w : World) (rid aid : Nat)
    (c k : Option String) (req : RequestRec) (actor : UserRec)
    (Hfr : findRequest w rid = some req)
    (Hst : req.status = .PENDING_APPROVAL)
    (Hfu : findUser w aid = some actor)
    (Hrole : actor.role = .APPROVER ∨ actor.role = .ADMIN)
    (Happ : hasApprovalFor w rid = true)
    (HidemR : idemReplay w k .REJECT_PAYMENT_REQUEST = none)
    (HidemA : idemReplay w k .APPROVE_PAYMENT_REQUEST = none) :
    rejectRequest w rid aid c k = .ok (w, req) ∧
    approveRequest w rid aid c k = .error .integrityViolation := by
  constructor
  · simp only [rejectRequest, HidemR, Hfr, Hfu]
    rw [if_neg (not_not_intro Hrole), if_neg (by simp [Hst]), if_pos Happ]
  · simp only [approveRequest, HidemA, Hfr, Hfu]
    rw [if_neg (not_not_intro Hrole), if_neg (by simp [Hst]), if_pos Happ]

/-- Witness for the amended C8 at `raceWorld`: rejecting returns the
current entity and the unchanged store, approving surfaces the storage
uniqueness violation. -/
theorem approval_record_race_asymmetry_witness :
    rejectRequest raceWorld 100 2 none (some "kW") =
      .ok (raceWorld, legacyReq 100 10 .PENDING_APPROVAL 1) ∧
    approveRequest raceWorld 100 2 none (some "kW") =
      .error .integrityViolation :=
  approval_record_race_asymmetry raceWorld 100 2 none (some "kW")
    (legacyReq 100 10 .PENDING_APPROVAL 1) ⟨2, .APPROVER⟩
    (by decide) (by decide) (by decide) (Or.inl rfl) (by decide)
    (by decide) (by decide)

/-- C6: every illegal transition attempt fails with `InvalidStateError` and
mutates nothing — an error outcome in this embedding carries no store, which
models Django rolling the transaction back, and all these checks run before
any write.  Covered attempts: `mark_paid` on a request that is neither
APPROVED nor PAID (e.g. DRAFT); `approve_request` on a request out of
PENDING_APPROVAL (including the terminal REJECTED and PAID) with a fresh or
absent key; `reject_request` out of PENDING_APPROVAL other than the
REJECTED replay; an amount update on a non-DRAFT (e.g. APPROVED) request;
`submit_batch`, `cancel_batch` and `add_request` against a batch out of
DRAFT other than their own idempotent replays (including terminal COMPLETED
and CANCELLED). -/
theorem illegal_transitions_fail_invalid_state (w : World) (rid bid uid : Nat) (c k : Option String) (a : Int)
    (req : RequestRec) (u : UserRec) (b : BatchRec)
    (Hfr : findRequest w rid = some req)
    (Hfu : findUser w uid = some u) :
    (idemReplay w k .MARK_PAYMENT_PAID = none →
      (u.role = .CREATOR ∨ u.role = .APPROVER) →
      req.status ≠ .APPROVED → req.status ≠ .PAID →
      markPaid w rid uid k =
        .error (.invalidStateError (.cannotMarkPaidStatus req.status))) ∧
    (idemReplay w k .APPROVE_PAYMENT_REQUEST = none →
      (u.role = .APPROVER ∨ u.role = .ADMIN) →
      req.status ≠ .PENDING_APPROVAL →
      (∀ s, k = some s → findIdemKey w s .APPROVE_PAYMENT_REQUEST = none) →
      svcInvalidState (approveRequest w rid uid c k) = true) ∧
    (idemReplay w k .REJECT_PAYMENT_REQUEST = none →
      (u.role = .APPROVER ∨ u.role = .ADMIN) →
      req.status ≠ .PENDING_APPROVAL → req.status ≠ .REJECTED →
      rejectRequest w rid uid c k =
        .error (.invalidStateError (.cannotRejectStatus req.status))) ∧
    (req.batchId = bid → findBatch w bid = some b →
      (u.role = .ADMIN ∨ b.createdBy = uid) →
      req.status ≠ .DRAFT →
      updateRequest w rid bid uid ⟨some a, none, none, none, none⟩ =
        .error (.invalidStateError (.cannotUpdateRequestStatus req.status))) ∧
    (findBatch w bid = some b →
      (u.role = .ADMIN ∨ b.createdBy = uid) →
      b.status ≠ .DRAFT → b.status ≠ .SUBMITTED →
      submitBatch w bid uid =
        .error (.invalidStateError (.cannotSubmitBatchStatus b.status))) ∧
    (findBatch w bid = some b →
      (u.role = .ADMIN ∨ b.createdBy = uid) →
      b.status ≠ .DRAFT → b.status ≠ .CANCELLED →
      cancelBatch w bid uid =
        .error (.invalidStateError (.cannotCancelBatchStatus b.status))) ∧
    (∀ args : AddRequestArgs,
      idemReplay w args.idempotencyKey .CREATE_PAYMENT_REQUEST = none →
      findBatch w bid = some b →
      (u.role = .ADMIN ∨ b.createdBy = uid) →
      b.status ≠ .DRAFT →
      addRequest w bid uid args =
        .error (.invalidStateError (.cannotAddRequestBatchStatus b.status))) := by
  refine ⟨?_, ?_, ?_, ?_, ?_, ?_, ?_⟩
  · intro hidem hrole hs1 hs2
    simp only [markPaid, hidem, Hfr, Hfu]
    rw [if_neg (not_not_intro hrole), if_pos hs1, if_neg hs2]
  · intro hidem hrole hs1 hkey
    simp only [approveRequest, hidem, Hfr, Hfu]
    rw [if_neg (not_not_intro hrole), if_pos hs1]
    by_cases happ : req.status = .APPROVED
    · rw [if_pos happ]
      cases k with
      | none => rfl
      | some s => simp only [hkey s rfl]; rfl
    · rw [if_neg happ]
      rfl
  · intro hidem hrole hs1 hs2
    simp only [rejectRequest, hidem, Hfr, Hfu]
    rw [if_neg (not_not_intro hrole), if_pos hs1, if_neg hs2]
  · intro hbid hfb hauth hs1
    rcases hauth with h | h
    · simp [updateRequest, Hfr, Hfu, hbid, hfb, hs1, h]
    · simp [updateRequest, Hfr, Hfu, hbid, hfb, hs1, h]
  · intro hfb hauth hs1 hs2
    simp only [submitBatch, hfb, Hfu]
    rw [if_neg (by rcases hauth with h | h <;> simp [h]), if_pos hs1,
      if_neg hs2]
  · intro hfb hauth hs1 hs2
    simp only [cancelBatch, hfb, Hfu]
    rw [if_neg (by rcases hauth with h | h <;> simp [h]), if_pos hs1,
      if_neg hs2]
  · intro args hidem hfb hauth hs1
    simp only [addRequest, hidem, hfb, Hfu]
    rw [if_neg (by rcases hauth with h | h <;> simp [h]), if_pos hs1]

/-- Witness for C6: marking a DRAFT request paid and patching an APPROVED
request's amount both fail with the respective `InvalidStateError`. -/
theorem illegal_transitions_fail_invalid_state_witness :
    markPaid draftReqWorld 100 1 none =
      .error (.invalidStateError (.cannotMarkPaidStatus .DRAFT)) ∧
    updateRequest approvedWorld 100 10 1 ⟨some 5, none, none, none, none⟩ =
      .error (.invalidStateError (.cannotUpdateRequestStatus .APPROVED)) := by
  constructor
  · exact (illegal_transitions_fail_invalid_state draftReqWorld 100 10 1
      none none 5 (legacyReq 100 10 .DRAFT 1) ⟨1, .CREATOR⟩ procBatchRec
      (by decide) (by decide)).1 (by decide) (Or.inl rfl) (by decide)
      (by decide)
  · exact (illegal_transitions_fail_invalid_state approvedWorld 100 10 1
      none none 5 (legacyReq 100 10 .APPROVED 2) ⟨1, .CREATOR⟩ procBatchRec
      (by decide) (by decide)).2.2.2.1 rfl (by decide) (Or.inr rfl)
      (by decide)

/-- Success of the ledger-driven validation block determines the
server-side amounts: the base comes from the argument, the extra defaults
to zero, and the total is their sum. -/
theorem resolveLedgerFields_spec (w : World) (args : AddRequestArgs)
    (et : String) (res : LedgerResolution)
    (h : resolveLedgerFields w args et = .ok res) :
    args.baseAmount = some res.base ∧
    res.extra = args.extraAmount.getD 0 ∧
    res.total = res.base + res.extra := by
  unfold resolveLedgerFields at h
  repeat' split at h
  all_goals first
    | (simp only [Except.ok.injEq] at h
       subst h
       exact ⟨by assumption, rfl, rfl⟩)
    | (exact absurd h (fun hc => Except.noConfusion hc))
    | (simp only [] at h
       repeat' split at h
       all_goals first
         | (simp only [Except.ok.injEq] at h
            subst h
            exact ⟨by assumption, rfl, rfl⟩)
         | (exact absurd h (fun hc => Except.noConfusion hc)))

/-- C7: the view never reads a client-supplied `totalAmount` (changing it
cannot change the outcome); every ledger-driven request accepted by
`add_request` is persisted with `total_amount = base_amount + extra_amount`
(extra defaulting to 0) in both its `total_amount` and legacy `amount`
columns; and `add_request` preserves the invariant that every stored
request with `total_amount` set satisfies
`total_amount = base_amount + extra_amount`. -/
theorem add_request_total_computed_server_side (w : World) (bid uid : Nat) (p : RequestPayload)
    (key : Option String) (args : AddRequestArgs) (w2 : World)
    (reqn : RequestRec) (et : String) :
    (∀ t, addRequestView w bid uid { p with totalAmount := t } key =
      addRequestView w bid uid p key) ∧
    (idemReplay w args.idempotencyKey .CREATE_PAYMENT_REQUEST = none →
      addRequest w bid uid args = .ok (w2, reqn) →
      args.entityType = some et →
      ∃ bamt, args.baseAmount = some bamt ∧
        reqn.totalAmount = some (bamt + args.extraAmount.getD 0) ∧
        reqn.amount = bamt + args.extraAmount.getD 0 ∧
        totalsOk reqn = true) ∧
    (addRequest w bid uid args = .ok (w2, reqn) →
      (∀ r ∈ w.requests, totalsOk r = true) →
      ∀ r ∈ w2.requests, totalsOk r = true) := by
  refine ⟨fun t => rfl, ?_, ?_⟩
  · intro Hidem Hok Het
    simp only [addRequest, Hidem, Het] at Hok
    split at Hok
    · exact absurd Hok (by simp)
    next batch hbatch =>
    split at Hok
    · exact absurd Hok (by simp)
    next creator hcreator =>
    split at Hok
    · exact absurd Hok (by simp)
    split at Hok
    · exact absurd Hok (by simp)
    split at Hok
    · exact absurd Hok (by simp)
    split at Hok
    next e hres => exact absurd Hok (by simp)
    next res hres =>
    obtain ⟨hb1, hb2, hb3⟩ := resolveLedgerFields_spec w args et res hres
    simp only [Except.ok.injEq, Prod.mk.injEq] at Hok
    obtain ⟨hw2, hreqn⟩ := Hok
    subst hreqn
    refine ⟨res.base, hb1, ?_, ?_, ?_⟩
    · simp only [← hb2, ← hb3]
    · simp only [← hb2, ← hb3]
    · simp [totalsOk, hb3]
  · intro Hok Hinv r hr
    cases hk : args.idempotencyKey
    all_goals
      simp only [addRequest, hk] at Hok
      split at Hok
      next r0 hrep =>
        simp only [Except.ok.injEq, Prod.mk.injEq] at Hok
        obtain ⟨hw2, _⟩ := Hok
        rw [← hw2] at hr
        exact Hinv r hr
      next hrep =>
      split at Hok
      · exact absurd Hok (by simp)
      next batch hbatch =>
      split at Hok
      · exact absurd Hok (by simp)
      next creator hcreator =>
      split at Hok
      · exact absurd Hok (by simp)
      split at Hok
      · exact absurd Hok (by simp)
      split at Hok
      · exact absurd Hok (by simp)
      split at Hok
      next etv hetv =>
        split at Hok
        next e hres => exact absurd Hok (by simp)
        next res hres =>
        obtain ⟨hb1, hb2, hb3⟩ := resolveLedgerFields_spec w args etv res hres
        simp only [Except.ok.injEq, Prod.mk.injEq] at Hok
        obtain ⟨hw2, hreqn⟩ := Hok
        rw [← hw2] at hr
        simp only [appendAudit, apply_ite World.requests, ite_self,
          List.mem_append, List.mem_singleton] at hr
        rcases hr with hr | hr
        · exact Hinv r hr
        · subst hr
          simp [totalsOk, hb3]
      next hetv =>
        split at Hok
        next e hleg => exact absurd Hok (by simp)
        next cur hleg =>
        simp only [Except.ok.injEq, Prod.mk.injEq] at Hok
        obtain ⟨hw2, hreqn⟩ := Hok
        rw [← hw2] at hr
        simp only [appendAudit, List.mem_append, List.mem_singleton] at hr
        rcases hr with hr | hr
        · exact Hinv r hr
        · subst hr
          simp [totalsOk]


/-- Witness for C7 at `ledgerWorld`/`ledgerPayload`: the client total 999
(or 7) is discarded and the stored request carries 125 = 100 + 25. -/
theorem add_request_total_computed_server_side_witness :
    addRequestView ledgerWorld 11 1
        { ledgerPayload with totalAmount := some 7 } none =
      addRequestView ledgerWorld 11 1 ledgerPayload none ∧
    (∃ bamt, (argsOfPayload ledgerPayload none).baseAmount = some bamt ∧
      ledgerResultReq.totalAmount =
        some (bamt + (argsOfPayload ledgerPayload none).extraAmount.getD 0) ∧
      ledgerResultReq.amount =
        bamt + (argsOfPayload ledgerPayload none).extraAmount.getD 0 ∧
      totalsOk ledgerResultReq = true) ∧
    (∀ r ∈ ledgerResultWorld.requests, totalsOk r = true) := by
  have h := add_request_total_computed_server_side ledgerWorld 11 1
    ledgerPayload none (argsOfPayload ledgerPayload none) ledgerResultWorld
    ledgerResultReq "VENDOR"
  exact ⟨h.1 (some 7), h.2.1 (by decide) (by decide) (by decide),
    h.2.2 (by decide) (fun r hr => absurd hr (by simp [ledgerWorld]))⟩

/-- `find?` by id yields a record with that id. -/

theorem approve_shape (w : World) (rid aid : Nat) (c : Option String)
    (s : String) (req : RequestRec) (u : UserRec)
    (Hkey : findIdemKey w s .APPROVE_PAYMENT_REQUEST = none)
    (Hfr : findRequest w rid = some req)
    (Hst : req.status = .PENDING_APPROVAL)
    (Hfu : findUser w aid = some u)
    (Hrole : u.role = .APPROVER ∨ u.role = .ADMIN)
    (Happ : hasApprovalFor w rid = false) :
    approveRequest w rid aid c (some s) =
      .ok ({ w with
          approvals := w.approvals ++
            [⟨req.id, aid, .APPROVED, normComment c⟩],
          requests := w.requests.map (fun r =>
            if (r.id == rid && r.status == Status.PENDING_APPROVAL &&
                (r.version == req.version) &&
                (r.version == req.version)) = true then
              { r with
                status := Status.APPROVED,
                updatedBy := some aid,
                version := r.version + 1 }
            else r),
          idemKeys := w.idemKeys ++
            [⟨s, .APPROVE_PAYMENT_REQUEST, some req.id, 200⟩],
          audits := w.audits ++
            [⟨.APPROVAL_RECORDED, some aid, "PaymentRequest",
              some req.id⟩] },
        { req with
          status := Status.APPROVED,
          updatedBy := some aid,
          version := req.version + 1 }) := by
  have hrid : req.id = rid := by
    have := List.find?_some Hfr
    simpa using this
  have hmem : req ∈ w.requests := List.mem_of_find?_eq_some Hfr
  have hv : validateTransition .PaymentRequest .PENDING_APPROVAL .APPROVED =
      .ok true := by decide
  have Hfr2 : List.find? (fun r => r.id == rid) w.requests = some req := Hfr
  have hcne : List.countP (fun r =>
      (r.id == rid && r.status == Status.PENDING_APPROVAL &&
        (r.version == req.version)) && (r.version == req.version))
      w.requests ≠ 0 := by
    apply countP_ne_zero_of_mem hmem
    simp [hrid, Hst]
  have hfcond : (req.id == rid && req.status == Status.PENDING_APPROVAL &&
      (req.version == req.version) && (req.version == req.version)) =
      true := by
    simp [hrid, Hst]
  have hidp : ∀ r : RequestRec,
      ((fun r => if (r.id == rid && r.status == Status.PENDING_APPROVAL &&
          (r.version == req.version) && (r.version == req.version)) = true then
          ({ r with
              status := Status.APPROVED,
              updatedBy := some aid,
              version := r.version + 1 } : RequestRec)
        else r) r).id = r.id := by
    intro r
    by_cases h : (r.id == rid && r.status == Status.PENDING_APPROVAL &&
        (r.version == req.version) && (r.version == req.version)) = true
    · simp [h]
    · simp [h]
  have hir : idemReplay w (some s) .APPROVE_PAYMENT_REQUEST = none := by
    simp [idemReplay, Hkey]
  simp only [approveRequest, hir, Hfr, Hfu]
  rw [if_neg (not_not_intro Hrole), if_neg (by simp [Hst]), if_neg (by simp [Happ])]
  rw [Hst]
  simp only [hv, versionLockedUpdate]
  rw [if_neg hcne]
  simp only [hcne, findRequest, if_false]
  rw [find_id_map _ _ hidp]
  rw [Hfr2]
  simp only [Option.map_some', hfcond, if_true]
  rw [hrid]
  rfl

theorem soaFold_idemKeys (rs : List RequestRec) (acc : World) :
    (rs.foldl soaGenStep acc).idemKeys = acc.idemKeys := by
  induction rs generalizing acc with
  | nil => rfl
  | cons r rs ih => simp [List.foldl_cons, soaGenStep, ih]

theorem soaFold_approvals (rs : List RequestRec) (acc : World) :
    (rs.foldl soaGenStep acc).approvals = acc.approvals := by
  induction rs generalizing acc with
  | nil => rfl
  | cons r rs ih => simp [List.foldl_cons, soaGenStep, ih]

theorem soaFold_users (rs : List RequestRec) (acc : World) :
    (rs.foldl soaGenStep acc).users = acc.users := by
  induction rs generalizing acc with
  | nil => rfl
  | cons r rs ih => simp [List.foldl_cons, soaGenStep, ih]

theorem soaFold_audits (rs : List RequestRec) (acc : World) :
    (rs.foldl soaGenStep acc).audits = acc.audits := by
  induction rs generalizing acc with
  | nil => rfl
  | cons r rs ih => simp [List.foldl_cons, soaGenStep, ih]

/-- `cascadeCompletion` never fails: the only state-machine call it makes is
the PROCESSING → COMPLETED transition, which is legal. -/
theorem cascade_ok (v : World) (bb : BatchRec) :
    ∃ v2, cascadeCompletion v bb = .ok v2 := by
  unfold cascadeCompletion
  split
  next hb =>
    split
    next ht =>
      rw [hb]
      have hv2 : validateTransition .PaymentBatch .PROCESSING .COMPLETED =
          .ok true := by decide
      simp only [hv2]
      exact ⟨_, rfl⟩
    next ht => exact ⟨_, rfl⟩
  next hb => exact ⟨_, rfl⟩

/-- `generateSoaForBatch` touches only the SOA and audit tables. -/
theorem genSoa_frame (w : World) (bid : Nat) :
    (generateSoaForBatch w bid).requests = w.requests ∧
    (generateSoaForBatch w bid).idemKeys = w.idemKeys ∧
    (generateSoaForBatch w bid).approvals = w.approvals ∧
    (generateSoaForBatch w bid).users = w.users ∧
    (generateSoaForBatch w bid).batches = w.batches ∧
    ∃ suffix, (generateSoaForBatch w bid).audits = w.audits ++ suffix ∧
      ∀ a ∈ suffix, a.eventType = .SOA_GENERATED := by
  unfold generateSoaForBatch
  split
  next => exact ⟨rfl, rfl, rfl, rfl, rfl, [], by simp, by simp⟩
  next =>
    split
    next => exact ⟨rfl, rfl, rfl, rfl, rfl, [], by simp, by simp⟩
    next =>
      refine ⟨?_, ?_, ?_, ?_, ?_, [⟨.SOA_GENERATED, none, "PaymentBatch",
        some bid⟩], ?_, ?_⟩
      · simp [appendAudit, soaFold_requests]
      · simp [appendAudit, soaFold_idemKeys]
      · simp [appendAudit, soaFold_approvals]
      · simp [appendAudit, soaFold_users]
      · simp [appendAudit, soaFold_batches]
      · simp [appendAudit, soaFold_audits]
      · intro a ha
        simp only [List.mem_singleton] at ha
        subst ha
        rfl

/-- The completion cascade touches only the batch, audit and SOA tables:
requests, idempotency keys, approvals and users are unchanged, and the
audit sink only gains `BATCH_COMPLETED` / `SOA_GENERATED` entries. -/
theorem cascade_frame (v : World) (bb : BatchRec) (v2 : World)
    (h : cascadeCompletion v bb = .ok v2) :
    v2.requests = v.requests ∧ v2.idemKeys = v.idemKeys ∧
    v2.approvals = v.approvals ∧ v2.users = v.users ∧
    ∃ suffix, v2.audits = v.audits ++ suffix ∧
      ∀ a ∈ suffix, a.eventType = .BATCH_COMPLETED ∨
        a.eventType = .SOA_GENERATED := by
  unfold cascadeCompletion at h
  split at h
  next hb =>
    split at h
    next ht =>
      rw [hb] at h
      have hv2 : validateTransition .PaymentBatch .PROCESSING .COMPLETED =
          .ok true := by decide
      simp only [hv2, Except.ok.injEq] at h
      subst h
      obtain ⟨h1, h2, h3, h4, h5, suf, h6, h7⟩ := genSoa_frame
        (appendAudit (saveBatch v bb.id
          (fun b => { b with status := .COMPLETED, completedAt := some v.now }))
          ⟨.BATCH_COMPLETED, none, "PaymentBatch", some bb.id⟩) bb.id
      refine ⟨?_, ?_, ?_, ?_,
        ⟨.BATCH_COMPLETED, none, "PaymentBatch", some bb.id⟩ :: suf, ?_, ?_⟩
      · rw [h1]; simp [appendAudit, saveBatch]
      · rw [h2]; simp [appendAudit, saveBatch]
      · rw [h3]; simp [appendAudit, saveBatch]
      · rw [h4]; simp [appendAudit, saveBatch]
      · rw [h6]; simp [appendAudit, saveBatch]
      · intro a ha
        simp only [List.mem_cons] at ha
        rcases ha with ha | ha
        · subst ha; exact Or.inl rfl
        · exact Or.inr (h7 a ha)
    next ht =>
      simp only [Except.ok.injEq] at h
      subst h
      exact ⟨rfl, rfl, rfl, rfl, [], by simp, by simp⟩
  next hb =>
    simp only [Except.ok.injEq] at h
    subst h
    exact ⟨rfl, rfl, rfl, rfl, [], by simp, by simp⟩

theorem findRequest_id (w : World) (rid : Nat) (req : RequestRec)
    (h : findRequest w rid = some req) : req.id = rid := by
  have := List.find?_some h
  simpa using this

/-- Shape of a successful fresh-key `reject_request` on a PENDING_APPROVAL
request with no existing approval record. -/
theorem reject_shape (w : World) (rid aid : Nat) (c : Option String)
    (s : String) (req : RequestRec) (u : UserRec)
    (Hkey : findIdemKey w s .REJECT_PAYMENT_REQUEST = none)
    (Hfr : findRequest w rid = some req)
    (Hst : req.status = .PENDING_APPROVAL)
    (Hfu : findUser w aid = some u)
    (Hrole : u.role = .APPROVER ∨ u.role = .ADMIN)
    (Happ : hasApprovalFor w rid = false) :
    rejectRequest w rid aid c (some s) =
      .ok ({ w with
          approvals := w.approvals ++
            [⟨req.id, aid, .REJECTED, normComment c⟩],
          requests := w.requests.map (fun r =>
            if (r.id == rid && r.status == Status.PENDING_APPROVAL &&
                (r.version == req.version) &&
                (r.version == req.version)) = true then
              { r with
                status := Status.REJECTED,
                updatedBy := some aid,
                version := r.version + 1 }
            else r),
          idemKeys := w.idemKeys ++
            [⟨s, .REJECT_PAYMENT_REQUEST, some req.id, 200⟩],
          audits := w.audits ++
            [⟨.APPROVAL_RECORDED, some aid, "PaymentRequest",
              some req.id⟩] },
        { req with
          status := Status.REJECTED,
          updatedBy := some aid,
          version := req.version + 1 }) := by
  have hrid : req.id = rid := findRequest_id w rid req Hfr
  have hmem : req ∈ w.requests := List.mem_of_find?_eq_some Hfr
  have hv : validateTransition .PaymentRequest .PENDING_APPROVAL .REJECTED =
      .ok true := by decide
  have Hfr2 : List.find? (fun r => r.id == rid) w.requests = some req := Hfr
  have hcne : List.countP (fun r =>
      (r.id == rid && r.status == Status.PENDING_APPROVAL &&
        (r.version == req.version)) && (r.version == req.version))
      w.requests ≠ 0 := by
    apply countP_ne_zero_of_mem hmem
    simp [hrid, Hst]
  have hfcond : (req.id == rid && req.status == Status.PENDING_APPROVAL &&
      (req.version == req.version) && (req.version == req.version)) =
      true := by
    simp [hrid, Hst]
  have hidp : ∀ r : RequestRec,
      ((fun r => if (r.id == rid && r.status == Status.PENDING_APPROVAL &&
          (r.version == req.version) && (r.version == req.version)) = true then
          ({ r with
              status := Status.REJECTED,
              updatedBy := some aid,
              version := r.version + 1 } : RequestRec)
        else r) r).id = r.id := by
    intro r
    by_cases h : (r.id == rid && r.status == Status.PENDING_APPROVAL &&
        (r.version == req.version) && (r.version == req.version)) = true
    · simp [h]
    · simp [h]
  have hir : idemReplay w (some s) .REJECT_PAYMENT_REQUEST = none := by
    simp [idemReplay, Hkey]
  simp only [rejectRequest, hir, Hfr, Hfu]
  rw [if_neg (not_not_intro Hrole), if_neg (by simp [Hst]), if_neg (by simp [Happ])]
  rw [Hst]
  simp only [hv, versionLockedUpdate]
  rw [if_neg hcne]
  simp only [hcne, findRequest, if_false]
  rw [find_id_map _ _ hidp]
  rw [Hfr2]
  simp only [Option.map_some', hfcond, if_true]
  rw [hrid]
  rfl

/-- Shape of a successful fresh-key `mark_paid` on an APPROVED request:
the result is whatever the completion cascade makes of `paidUpdateWorld`,
paired with the refreshed PAID request row. -/
theorem markPaid_shape (w : World) (rid aid : Nat)
    (s : String) (req : RequestRec) (u : UserRec) (b : BatchRec) (w7 : World)
    (Hkey : findIdemKey w s .MARK_PAYMENT_PAID = none)
    (Hfr : findRequest w rid = some req)
    (Hst : req.status = .APPROVED)
    (Hfu : findUser w aid = some u)
    (Hrole : u.role = .CREATOR ∨ u.role = .APPROVER)
    (Hfb : findBatch w req.batchId = some b)
    (Hcc : cascadeCompletion (paidUpdateWorld w rid aid s req) b = .ok w7) :
    markPaid w rid aid (some s) =
      .ok (w7,
        { req with
          status := Status.PAID,
          updatedBy := some aid,
          version := req.version + 1 }) := by
  have hrid : req.id = rid := findRequest_id w rid req Hfr
  have hmem : req ∈ w.requests := List.mem_of_find?_eq_some Hfr
  have hv : validateTransition .PaymentRequest .APPROVED .PAID =
      .ok true := by decide
  have Hfr2 : List.find? (fun r => r.id == rid) w.requests = some req := Hfr
  have hcne : List.countP (fun r =>
      (r.id == rid && r.status == Status.APPROVED &&
        (r.version == req.version)) && (r.version == req.version))
      w.requests ≠ 0 := by
    apply countP_ne_zero_of_mem hmem
    simp [hrid, Hst]
  have hfcond : (req.id == rid && req.status == Status.APPROVED &&
      (req.version == req.version) && (req.version == req.version)) =
      true := by
    simp [hrid, Hst]
  have hidp : ∀ r : RequestRec,
      ((fun r => if (r.id == rid && r.status == Status.APPROVED &&
          (r.version == req.version) && (r.version == req.version)) = true then
          ({ r with
              status := Status.PAID,
              updatedBy := some aid,
              version := r.version + 1 } : RequestRec)
        else r) r).id = r.id := by
    intro r
    by_cases h : (r.id == rid && r.status == Status.APPROVED &&
        (r.version == req.version) && (r.version == req.version)) = true
    · simp [h]
    · simp [h]
  have hir : idemReplay w (some s) .MARK_PAYMENT_PAID = none := by
    simp [idemReplay, Hkey]
  have hfb4 : findBatch (paidUpdateWorld w rid aid s req) req.batchId =
      some b := Hfb
  simp only [markPaid, hir, Hfr, Hfu]
  rw [if_neg (not_not_intro Hrole), if_neg (by simp [Hst])]
  rw [Hst]
  simp only [hv, versionLockedUpdate]
  rw [if_neg hcne]
  simp only [hcne, findRequest, if_false]
  rw [find_id_map _ _ hidp]
  rw [Hfr2]
  simp only [Option.map_some', hfcond, if_true]
  have hfin : (match findBatch (paidUpdateWorld w rid aid s req) req.batchId with
      | none => (Except.error SvcErr.notFoundError :
          Except SvcErr (World × RequestRec))
      | some batch =>
          match cascadeCompletion (paidUpdateWorld w rid aid s req) batch with
          | .error e => .error e
          | .ok w7x => .ok (w7x,
              ({ req with
                status := Status.PAID,
                updatedBy := some aid,
                version := req.version + 1 } : RequestRec))) =
      .ok (w7,
        { req with
          status := Status.PAID,
          updatedBy := some aid,
          version := req.version + 1 }) := by
    simp only [hfb4, Hcc]
  exact hfin

/-- Appending a non-matching key row preserves an idempotency-lookup miss. -/
theorem findIdemKey_append_miss (l : List IdemRec) (k k0 : String)
    (op op0 : OpName) (tid : Option Nat) (st : Nat)
    (Hfresh : l.find? (fun ik => ik.key == k && ik.operation == op) = none)
    (Hne : k0 ≠ k ∨ op0 ≠ op) :
    (l ++ [({ key := k0, operation := op0, targetObjectId := tid,
              responseCode := st } : IdemRec)]).find?
      (fun ik => ik.key == k && ik.operation == op) = none := by
  rw [List.find?_append, Hfresh]
  rcases Hne with h | h <;> simp [h]

/-- The key row an operation just stored is found on replay, given the key
was fresh beforehand. -/
theorem findIdemKey_append_hit (l : List IdemRec) (k : String) (op : OpName)
    (tid : Option Nat) (st : Nat)
    (Hfresh : l.find? (fun ik => ik.key == k && ik.operation == op) = none) :
    (l ++ [({ key := k, operation := op, targetObjectId := tid,
              responseCode := st } : IdemRec)]).find?
      (fun ik => ik.key == k && ik.operation == op) =
      some ({ key := k, operation := op, targetObjectId := tid,
              responseCode := st } : IdemRec) := by
  rw [List.find?_append, Hfresh]
  simp

/-- Looking up the request after the version-locked status update yields the
bumped row. -/
theorem find_after_shape (w : World) (rid : Nat) (req : RequestRec)
    (st st2 : Status) (aid : Nat)
    (Hfr : findRequest w rid = some req) (Hst : req.status = st) :
    (w.requests.map (fun r =>
      if (r.id == rid && r.status == st && (r.version == req.version) &&
          (r.version == req.version)) = true then
        { r with
          status := st2,
          updatedBy := some aid,
          version := r.version + 1 }
      else r)).find? (fun r => r.id == rid) =
      some ({ req with
              status := st2,
              updatedBy := some aid,
              version := req.version + 1 } : RequestRec) := by
  have hrid : req.id = rid := findRequest_id w rid req Hfr
  have hidp : ∀ r : RequestRec,
      ((fun r => if (r.id == rid && r.status == st &&
          (r.version == req.version) && (r.version == req.version)) = true then
          ({ r with
              status := st2,
              updatedBy := some aid,
              version := r.version + 1 } : RequestRec)
        else r) r).id = r.id := by
    intro r
    by_cases h : (r.id == rid && r.status == st &&
        (r.version == req.version) && (r.version == req.version)) = true
    · simp [h]
    · simp [h]
  rw [find_id_map _ _ hidp]
  have Hfr2 : List.find? (fun r => r.id == rid) w.requests = some req := Hfr
  rw [Hfr2]
  simp [hrid, Hst]

/-- A stored-key replay of `approve_request` returns the keyed entity with
no store change. -/
theorem approve_replay (w : World) (rid aid : Nat) (c : Option String)
    (s : String) (ik : IdemRec) (tid : Nat) (r1 : RequestRec)
    (Hk : findIdemKey w s .APPROVE_PAYMENT_REQUEST = some ik)
    (Ht : ik.targetObjectId = some tid)
    (Hfr : findRequest w tid = some r1) :
    approveRequest w rid aid c (some s) = .ok (w, r1) := by
  simp only [approveRequest, idemReplay, Hk, Ht, Hfr]

/-- A stored-key replay of `reject_request` returns the keyed entity with
no store change. -/
theorem reject_replay (w : World) (rid aid : Nat) (c : Option String)
    (s : String) (ik : IdemRec) (tid : Nat) (r1 : RequestRec)
    (Hk : findIdemKey w s .REJECT_PAYMENT_REQUEST = some ik)
    (Ht : ik.targetObjectId = some tid)
    (Hfr : findRequest w tid = some r1) :
    rejectRequest w rid aid c (some s) = .ok (w, r1) := by
  simp only [rejectRequest, idemReplay, Hk, Ht, Hfr]

/-- A stored-key replay of `mark_paid` returns the keyed entity with no
store change. -/
theorem markPaid_replay (w : World) (rid aid : Nat)
    (s : String) (ik : IdemRec) (tid : Nat) (r1 : RequestRec)
    (Hk : findIdemKey w s .MARK_PAYMENT_PAID = some ik)
    (Ht : ik.targetObjectId = some tid)
    (Hfr : findRequest w tid = some r1) :
    markPaid w rid aid (some s) = .ok (w, r1) := by
  simp only [markPaid, idemReplay, Hk, Ht, Hfr]

/-- A fresh-key `approve_request` against an already-APPROVED request fails
with the already-approved `InvalidStateError` (HTTP 409 conflict). -/
theorem approve_err_on_approved (w : World) (rid aid : Nat) (c : Option String)
    (s : String) (req : RequestRec) (u : UserRec)
    (Hkey : findIdemKey w s .APPROVE_PAYMENT_REQUEST = none)
    (Hfr : findRequest w rid = some req)
    (Hst : req.status = .APPROVED)
    (Hfu : findUser w aid = some u)
    (Hrole : u.role = .APPROVER ∨ u.role = .ADMIN) :
    approveRequest w rid aid c (some s) =
      .error (.invalidStateError .alreadyApproved) := by
  have hir : idemReplay w (some s) .APPROVE_PAYMENT_REQUEST = none := by
    simp [idemReplay, Hkey]
  simp only [approveRequest, hir, Hfr, Hfu]
  rw [if_neg (not_not_intro Hrole), if_pos (by simp [Hst]), if_pos Hst]
  simp only [Hkey]

/-- A fresh-key `reject_request` against an already-REJECTED request
silently succeeds, returning the current entity. -/
theorem reject_ok_on_rejected (w : World) (rid aid : Nat) (c : Option String)
    (s : String) (req : RequestRec) (u : UserRec)
    (Hkey : findIdemKey w s .REJECT_PAYMENT_REQUEST = none)
    (Hfr : findRequest w rid = some req)
    (Hst : req.status = .REJECTED)
    (Hfu : findUser w aid = some u)
    (Hrole : u.role = .APPROVER ∨ u.role = .ADMIN) :
    rejectRequest w rid aid c (some s) = .ok (w, req) := by
  have hir : idemReplay w (some s) .REJECT_PAYMENT_REQUEST = none := by
    simp [idemReplay, Hkey]
  simp only [rejectRequest, hir, Hfr, Hfu]
  rw [if_neg (not_not_intro Hrole), if_pos (by simp [Hst]), if_pos Hst]

/-- A fresh-key `mark_paid` against an already-PAID request silently
succeeds, returning the current entity. -/
theorem markPaid_ok_on_paid (w : World) (rid aid : Nat)
    (s : String) (req : RequestRec) (u : UserRec)
    (Hkey : findIdemKey w s .MARK_PAYMENT_PAID = none)
    (Hfr : findRequest w rid = some req)
    (Hst : req.status = .PAID)
    (Hfu : findUser w aid = some u)
    (Hrole : u.role = .CREATOR ∨ u.role = .APPROVER) :
    markPaid w rid aid (some s) = .ok (w, req) := by
  have hir : idemReplay w (some s) .MARK_PAYMENT_PAID = none := by
    simp [idemReplay, Hkey]
  simp only [markPaid, hir, Hfr, Hfu]
  rw [if_neg (not_not_intro Hrole), if_pos (by simp [Hst]), if_pos Hst]

/-- Once the request is APPROVED, every further fresh-key approve attempt
conflicts and leaves the store unchanged. -/
theorem approveAttempts_stall (rid aid : Nat) (c : Option String)
    (ks : List String) (v : World) (r : RequestRec) (u : UserRec)
    (Hfr : findRequest v rid = some r) (Hst : r.status = .APPROVED)
    (Hfu : findUser v aid = some u)
    (Hrole : u.role = .APPROVER ∨ u.role = .ADMIN)
    (Hfresh : ∀ k ∈ ks, findIdemKey v k .APPROVE_PAYMENT_REQUEST = none) :
    approveAttempts rid aid c ks v = (v, 0, ks.length) := by
  induction ks with
  | nil => rfl
  | cons k ks ih =>
      have he := approve_err_on_approved v rid aid c k r u
        (Hfresh k (by simp)) Hfr Hst Hfu Hrole
      have hrest := ih (fun k2 hk2 => Hfresh k2 (by simp [hk2]))
      simp only [approveAttempts, he, hrest]
      simp [SvcErr.code]

/-- A false `hasApprovalFor` means no stored approval row references the
request. -/
theorem approvals_count_zero (w : World) (rid : Nat)
    (h : hasApprovalFor w rid = false) :
    w.approvals.countP (fun a => a.requestId == rid) = 0 := by
  rw [List.countP_eq_zero]
  intro a ha
  simp only [hasApprovalFor, List.any_eq_false] at h
  exact h a ha

/-- C4: after a first successful keyed call, replaying `approve_request`,
`reject_request` or `mark_paid` with the same idempotency key returns the
very same store and entity (no business logic re-runs), and afterwards
exactly one `ApprovalRecord` and exactly one terminal-state audit entry
(`APPROVAL_RECORDED`, resp. `REQUEST_PAID`) exist for the request. -/
theorem idempotent_replay_no_reexecution
    (w : World) (aid : Nat) (c : Option String)
    (rid1 rid2 rid3 : Nat) (k1 k2 k3 : String)
    (req1 req2 req3 : RequestRec) (u : UserRec) (b : BatchRec)
    (Hfu : findUser w aid = some u) (Hrole : u.role = .APPROVER)
    (Hk1 : findIdemKey w k1 .APPROVE_PAYMENT_REQUEST = none)
    (Hr1 : findRequest w rid1 = some req1)
    (Hs1 : req1.status = .PENDING_APPROVAL)
    (Ha1 : hasApprovalFor w rid1 = false)
    (Haud1 : w.audits.countP
      (fun a => a.eventType == EventType.APPROVAL_RECORDED &&
        a.entityId == some rid1) = 0)
    (Hk2 : findIdemKey w k2 .REJECT_PAYMENT_REQUEST = none)
    (Hr2 : findRequest w rid2 = some req2)
    (Hs2 : req2.status = .PENDING_APPROVAL)
    (Ha2 : hasApprovalFor w rid2 = false)
    (Haud2 : w.audits.countP
      (fun a => a.eventType == EventType.APPROVAL_RECORDED &&
        a.entityId == some rid2) = 0)
    (Hk3 : findIdemKey w k3 .MARK_PAYMENT_PAID = none)
    (Hr3 : findRequest w rid3 = some req3)
    (Hs3 : req3.status = .APPROVED)
    (Haud3 : w.audits.countP
      (fun a => a.eventType == EventType.REQUEST_PAID &&
        a.entityId == some rid3) = 0)
    (Hb : findBatch w req3.batchId = some b) :
    (∃ w1 r1, approveRequest w rid1 aid c (some k1) = .ok (w1, r1) ∧
      approveRequest w1 rid1 aid c (some k1) = .ok (w1, r1) ∧
      w1.approvals.countP (fun a => a.requestId == rid1) = 1 ∧
      w1.audits.countP
        (fun a => a.eventType == EventType.APPROVAL_RECORDED &&
          a.entityId == some rid1) = 1) ∧
    (∃ w2 r2, rejectRequest w rid2 aid c (some k2) = .ok (w2, r2) ∧
      rejectRequest w2 rid2 aid c (some k2) = .ok (w2, r2) ∧
      w2.approvals.countP (fun a => a.requestId == rid2) = 1 ∧
      w2.audits.countP
        (fun a => a.eventType == EventType.APPROVAL_RECORDED &&
          a.entityId == some rid2) = 1) ∧
    (∃ w3 r3, markPaid w rid3 aid (some k3) = .ok (w3, r3) ∧
      markPaid w3 rid3 aid (some k3) = .ok (w3, r3) ∧
      w3.audits.countP
        (fun a => a.eventType == EventType.REQUEST_PAID &&
          a.entityId == some rid3) = 1) := by
  refine ⟨?_, ?_, ?_⟩
  · have hrid : req1.id = rid1 := findRequest_id w rid1 req1 Hr1
    have hsh := approve_shape w rid1 aid c k1 req1 u Hk1 Hr1 Hs1 Hfu
      (Or.inl Hrole) Ha1
    obtain ⟨w1, r1, hok, hw1, hr1⟩ :
        ∃ w1 r1, approveRequest w rid1 aid c (some k1) = .ok (w1, r1) ∧
          w1 = { w with
            approvals := w.approvals ++
              [⟨req1.id, aid, .APPROVED, normComment c⟩],
            requests := w.requests.map (fun r =>
              if (r.id == rid1 && r.status == Status.PENDING_APPROVAL &&
                  (r.version == req1.version) &&
                  (r.version == req1.version)) = true then
                { r with
                  status := Status.APPROVED,
                  updatedBy := some aid,
                  version := r.version + 1 }
              else r),
            idemKeys := w.idemKeys ++
              [⟨k1, .APPROVE_PAYMENT_REQUEST, some req1.id, 200⟩],
            audits := w.audits ++
              [⟨.APPROVAL_RECORDED, some aid, "PaymentRequest",
                some req1.id⟩] } ∧
          r1 = { req1 with
            status := Status.APPROVED,
            updatedBy := some aid,
            version := req1.version + 1 } :=
      ⟨_, _, hsh, rfl, rfl⟩
    rw [hrid] at hw1
    refine ⟨w1, r1, hok, ?_, ?_, ?_⟩
    · have hk : findIdemKey w1 k1 .APPROVE_PAYMENT_REQUEST =
          some ({ key := k1, operation := .APPROVE_PAYMENT_REQUEST,
                  targetObjectId := some rid1,
                  responseCode := 200 } : IdemRec) := by
        rw [hw1]
        exact findIdemKey_append_hit w.idemKeys k1 .APPROVE_PAYMENT_REQUEST
          (some rid1) 200 Hk1
      have hfr : findRequest w1 rid1 = some r1 := by
        rw [hw1, hr1]
        exact find_after_shape w rid1 req1 .PENDING_APPROVAL .APPROVED aid
          Hr1 Hs1
      exact approve_replay w1 rid1 aid c k1 _ rid1 r1 hk rfl hfr
    · have hpa := approvals_count_zero w rid1 Ha1
      rw [hw1]
      simp [List.countP_append, List.countP_cons, hpa]
    · rw [hw1]
      simp [List.countP_append, List.countP_cons, Haud1]
  · have hrid : req2.id = rid2 := findRequest_id w rid2 req2 Hr2
    have hsh := reject_shape w rid2 aid c k2 req2 u Hk2 Hr2 Hs2 Hfu
      (Or.inl Hrole) Ha2
    obtain ⟨w2, r2, hok, hw2, hr2⟩ :
        ∃ w2 r2, rejectRequest w rid2 aid c (some k2) = .ok (w2, r2) ∧
          w2 = { w with
            approvals := w.approvals ++
              [⟨req2.id, aid, .REJECTED, normComment c⟩],
            requests := w.requests.map (fun r =>
              if (r.id == rid2 && r.status == Status.PENDING_APPROVAL &&
                  (r.version == req2.version) &&
                  (r.version == req2.version)) = true then
                { r with
                  status := Status.REJECTED,
                  updatedBy := some aid,
                  version := r.version + 1 }
              else r),
            idemKeys := w.idemKeys ++
              [⟨k2, .REJECT_PAYMENT_REQUEST, some req2.id, 200⟩],
            audits := w.audits ++
              [⟨.APPROVAL_RECORDED, some aid, "PaymentRequest",
                some req2.id⟩] } ∧
          r2 = { req2 with
            status := Status.REJECTED,
            updatedBy := some aid,
            version := req2.version + 1 } :=
      ⟨_, _, hsh, rfl, rfl⟩
    rw [hrid] at hw2
    refine ⟨w2, r2, hok, ?_, ?_, ?_⟩
    · have hk : findIdemKey w2 k2 .REJECT_PAYMENT_REQUEST =
          some ({ key := k2, operation := .REJECT_PAYMENT_REQUEST,
                  targetObjectId := some rid2,
                  responseCode := 200 } : IdemRec) := by
        rw [hw2]
        exact findIdemKey_append_hit w.idemKeys k2 .REJECT_PAYMENT_REQUEST
          (some rid2) 200 Hk2
      have hfr : findRequest w2 rid2 = some r2 := by
        rw [hw2, hr2]
        exact find_after_shape w rid2 req2 .PENDING_APPROVAL .REJECTED aid
          Hr2 Hs2
      exact reject_replay w2 rid2 aid c k2 _ rid2 r2 hk rfl hfr
    · have hpa := approvals_count_zero w rid2 Ha2
      rw [hw2]
      simp [List.countP_append, List.countP_cons, hpa]
    · rw [hw2]
      simp [List.countP_append, List.countP_cons, Haud2]
  · have hrid : req3.id = rid3 := findRequest_id w rid3 req3 Hr3
    obtain ⟨w7, hcc⟩ := cascade_ok (paidUpdateWorld w rid3 aid k3 req3) b
    have hsh := markPaid_shape w rid3 aid k3 req3 u b w7 Hk3 Hr3 Hs3 Hfu
      (Or.inr Hrole) Hb hcc
    obtain ⟨hreq, hik, happ, husers, suf, haud, hsuf⟩ :=
      cascade_frame (paidUpdateWorld w rid3 aid k3 req3) b w7 hcc
    refine ⟨w7, _, hsh, ?_, ?_⟩
    · have hk : findIdemKey w7 k3 .MARK_PAYMENT_PAID =
          some ({ key := k3, operation := .MARK_PAYMENT_PAID,
                  targetObjectId := some req3.id,
                  responseCode := 200 } : IdemRec) := by
        simp only [findIdemKey]
        rw [hik]
        exact findIdemKey_append_hit w.idemKeys k3 .MARK_PAYMENT_PAID
          (some req3.id) 200 Hk3
      have hfr : findRequest w7 rid3 = some
          ({ req3 with
             status := Status.PAID,
             updatedBy := some aid,
             version := req3.version + 1 } : RequestRec) := by
        simp only [findRequest]
        rw [hreq]
        exact find_after_shape w rid3 req3 .APPROVED .PAID aid Hr3 Hs3
      exact markPaid_replay w7 rid3 aid k3 _ rid3 _ hk (by rw [hrid]) hfr
    · have hsufz : suf.countP
          (fun a => a.eventType == EventType.REQUEST_PAID &&
            a.entityId == some rid3) = 0 := by
        rw [List.countP_eq_zero]
        intro a ha
        rcases hsuf a ha with h | h <;> simp [h]
      rw [haud]
      simp [paidUpdateWorld, List.countP_append, List.countP_cons,
        Haud3, hsufz, hrid]

/-- C3 (corrected): of N approve attempts with pairwise-distinct fresh
idempotency keys against one PENDING_APPROVAL request, exactly 1 succeeds,
the other N-1 fail with an `InvalidStateError` conflict, and exactly one
`ApprovalRecord` exists afterward; but a fresh-key retry of
`reject_request` against an already-REJECTED request, or of `mark_paid`
against an already-PAID request, silently succeeds with the current
entity instead of failing with a conflict. -/
theorem retry_with_distinct_keys
    (w : World) (rid aid : Nat) (c : Option String)
    (k0 : String) (ks : List String) (req : RequestRec) (u : UserRec)
    (Hdist : ∀ k ∈ ks, k0 ≠ k)
    (Hfresh : ∀ k ∈ k0 :: ks, findIdemKey w k .APPROVE_PAYMENT_REQUEST = none)
    (Hfr : findRequest w rid = some req)
    (Hst : req.status = .PENDING_APPROVAL)
    (Hfu : findUser w aid = some u)
    (Hrole : u.role = .APPROVER ∨ u.role = .ADMIN)
    (Happ : hasApprovalFor w rid = false)
    (v2 : World) (rid2 aid2 : Nat) (c2 : Option String) (k2 : String)
    (req2 : RequestRec) (u2 : UserRec)
    (Hkey2 : findIdemKey v2 k2 .REJECT_PAYMENT_REQUEST = none)
    (Hfr2 : findRequest v2 rid2 = some req2)
    (Hst2 : req2.status = .REJECTED)
    (Hfu2 : findUser v2 aid2 = some u2)
    (Hrole2 : u2.role = .APPROVER ∨ u2.role = .ADMIN)
    (v3 : World) (rid3 aid3 : Nat) (k3 : String)
    (req3 : RequestRec) (u3 : UserRec)
    (Hkey3 : findIdemKey v3 k3 .MARK_PAYMENT_PAID = none)
    (Hfr3 : findRequest v3 rid3 = some req3)
    (Hst3 : req3.status = .PAID)
    (Hfu3 : findUser v3 aid3 = some u3)
    (Hrole3 : u3.role = .CREATOR ∨ u3.role = .APPROVER) :
    (approveAttempts rid aid c (k0 :: ks) w).2.1 = 1 ∧
    (approveAttempts rid aid c (k0 :: ks) w).2.2 = (k0 :: ks).length - 1 ∧
    (approveAttempts rid aid c (k0 :: ks) w).1.approvals.countP
      (fun a => a.requestId == rid) = 1 ∧
    rejectRequest v2 rid2 aid2 c2 (some k2) = .ok (v2, req2) ∧
    markPaid v3 rid3 aid3 (some k3) = .ok (v3, req3) := by
  have hrid : req.id = rid := findRequest_id w rid req Hfr
  have hsh := approve_shape w rid aid c k0 req u (Hfresh k0 (by simp)) Hfr
    Hst Hfu Hrole Happ
  obtain ⟨w1, r1, hok, hw1, hr1⟩ :
      ∃ w1 r1, approveRequest w rid aid c (some k0) = .ok (w1, r1) ∧
        w1 = { w with
          approvals := w.approvals ++
            [⟨req.id, aid, .APPROVED, normComment c⟩],
          requests := w.requests.map (fun r =>
            if (r.id == rid && r.status == Status.PENDING_APPROVAL &&
                (r.version == req.version) &&
                (r.version == req.version)) = true then
              { r with
                status := Status.APPROVED,
                updatedBy := some aid,
                version := r.version + 1 }
            else r),
          idemKeys := w.idemKeys ++
            [⟨k0, .APPROVE_PAYMENT_REQUEST, some req.id, 200⟩],
          audits := w.audits ++
            [⟨.APPROVAL_RECORDED, some aid, "PaymentRequest",
              some req.id⟩] } ∧
        r1 = { req with
          status := Status.APPROVED,
          updatedBy := some aid,
          version := req.version + 1 } :=
    ⟨_, _, hsh, rfl, rfl⟩
  rw [hrid] at hw1
  have hfrW1 : findRequest w1 rid = some r1 := by
    rw [hw1, hr1]
    exact find_after_shape w rid req .PENDING_APPROVAL .APPROVED aid Hfr Hst
  have hstR1 : r1.status = .APPROVED := by rw [hr1]
  have hfuW1 : findUser w1 aid = some u := by rw [hw1]; exact Hfu
  have hfreshW1 : ∀ k ∈ ks, findIdemKey w1 k .APPROVE_PAYMENT_REQUEST =
      none := by
    intro k hk
    rw [hw1]
    exact findIdemKey_append_miss w.idemKeys k k0 .APPROVE_PAYMENT_REQUEST
      .APPROVE_PAYMENT_REQUEST (some rid) 200 (Hfresh k (by simp [hk]))
      (Or.inl (Hdist k hk))
  have hstall := approveAttempts_stall rid aid c ks w1 r1 u hfrW1 hstR1
    hfuW1 Hrole hfreshW1
  refine ⟨?_, ?_, ?_, ?_, ?_⟩
  · simp only [approveAttempts, hok, hstall]
  · simp only [approveAttempts, hok, hstall, List.length_cons]
    simp
  · simp only [approveAttempts, hok, hstall]
    have hpa := approvals_count_zero w rid Happ
    rw [hw1]
    simp [List.countP_append, List.countP_cons, hpa]
  · exact reject_ok_on_rejected v2 rid2 aid2 c2 k2 req2 u2 Hkey2 Hfr2
      Hst2 Hfu2 Hrole2
  · exact markPaid_ok_on_paid v3 rid3 aid3 k3 req3 u3 Hkey3 Hfr3 Hst3
      Hfu3 Hrole3

/-- Counterexample to C3 as stated: a second `reject_request` with a
different idempotency key, run against the store a first successful reject
left behind, silently returns the same success instead of failing with a
conflict/invalid-state error. -/
theorem reject_retry_different_key_silently_succeeds :
    rejectRetryFirst.isOk = true ∧
    rejectRetrySecond = rejectRetryFirst ∧
    svcInvalidState rejectRetrySecond = false := by
  decide

theorem retry_with_distinct_keys_witness :
    (approveAttempts 100 2 none ["kA", "kB", "kC"] pendingWorld).2.1 = 1 ∧
    (approveAttempts 100 2 none ["kA", "kB", "kC"] pendingWorld).2.2 = 2 ∧
    (approveAttempts 100 2 none ["kA", "kB", "kC"]
      pendingWorld).1.approvals.countP (fun a => a.requestId == 100) = 1 ∧
    rejectRequest rejectedWorld 100 2 none (some "kR") =
      .ok (rejectedWorld,
        { legacyReq 100 10 .REJECTED 2 with updatedBy := some 2 }) ∧
    markPaid paidWorld 100 1 (some "kM") = .ok (paidWorld, paidReq) :=
  retry_with_distinct_keys pendingWorld 100 2 none "kA" ["kB", "kC"]
    (legacyReq 100 10 .PENDING_APPROVAL 1) ⟨2, .APPROVER⟩
    (by decide) (by decide) (by decide) (by decide) (by decide) (by decide)
    (by decide)
    rejectedWorld 100 2 none "kR"
    ({ legacyReq 100 10 .REJECTED 2 with updatedBy := some 2 })
    ⟨2, .APPROVER⟩
    (by decide) (by decide) (by decide) (by decide) (by decide)
    paidWorld 100 1 "kM" paidReq ⟨1, .CREATOR⟩
    (by decide) (by decide) (by decide) (by decide) (by decide)

theorem idempotent_replay_no_reexecution_witness :
    (∃ w1 r1, approveRequest c4World 100 2 none (some "k1") = .ok (w1, r1) ∧
      approveRequest w1 100 2 none (some "k1") = .ok (w1, r1) ∧
      w1.approvals.countP (fun a => a.requestId == 100) = 1 ∧
      w1.audits.countP
        (fun a => a.eventType == EventType.APPROVAL_RECORDED &&
          a.entityId == some 100) = 1) ∧
    (∃ w2 r2, rejectRequest c4World 101 2 none (some "k2") = .ok (w2, r2) ∧
      rejectRequest w2 101 2 none (some "k2") = .ok (w2, r2) ∧
      w2.approvals.countP (fun a => a.requestId == 101) = 1 ∧
      w2.audits.countP
        (fun a => a.eventType == EventType.APPROVAL_RECORDED &&
          a.entityId == some 101) = 1) ∧
    (∃ w3 r3, markPaid c4World 102 2 (some "k3") = .ok (w3, r3) ∧
      markPaid w3 102 2 (some "k3") = .ok (w3, r3) ∧
      w3.audits.countP
        (fun a => a.eventType == EventType.REQUEST_PAID &&
          a.entityId == some 102) = 1) :=
  idempotent_replay_no_reexecution c4World 2 none 100 101 102 "k1" "k2" "k3"
    (legacyReq 100 10 .PENDING_APPROVAL 1)
    (legacyReq 101 10 .PENDING_APPROVAL 1)
    (legacyReq 102 10 .APPROVED 2)
    ⟨2, .APPROVER⟩ procBatchRec
    (by decide) (by decide) (by decide) (by decide) (by decide) (by decide)
    (by decide) (by decide) (by decide) (by decide) (by decide) (by decide)
    (by decide) (by decide) (by decide) (by decide) (by decide)

end IPS
